import Mathlib

/-!
Session connection orchestrator of cli-client

A shallow embedding of `rest/handlers/service.go` (the handlers `Connect`,
`Disconnect`, `GetStatus`) and of the `RunE` body of `cmd/connect.go`
(`ConnectCmd`), followed by theorems about them.

Conventions of the embedding:

* a Go `[]byte` is a `List Byte` with `Byte = Fin 256`, together with the
  bytes of its backing array between length and capacity where a slice
  expression is taken; `s[lo:hi]` is bounded by the capacity, and out-of-range
  bounds are a run-time panic (`none`);
* everything the handlers call but do not define (status file, tunnel service,
  port allocation, request decoding) is driven by an explicit world state and
  an environment `Env` of outcomes, so that every branch of the handlers is
  reachable in the model;
* each call a handler makes to the outside is logged as an `Effect`, in order.
-/

namespace CliClient

/-! ## Data model -/

/-- One octet. -/
abbrev Byte := Fin 256

/-- Go `net.IP`: a byte slice of length 4 or 16. -/
abbrev IP := List Byte

/-- The type `wireguardtypes.IPNet`: an address and a network length (`Net`). -/
structure IPNet where
  IP : IP
  Net : Nat
  deriving DecidableEq, Repr

/-- Modelled from the spec: `wireguardtypes.Key` and its constructor `NewKey`
are not among the sources. The spec speaks of the key material as bytes ("remote
node's tunnel public key (32 bytes)", "local private key bytes"); a key is
represented by the bytes it was made from. -/
structure Key where
  bytes : List Byte
  deriving DecidableEq, Repr

/-- Modelled from the spec: `wireguardtypes.NewKey`, see `Key`. -/
def NewKey (v : List Byte) : Key := ⟨v⟩

/-- The type `wireguardtypes.Interface`. -/
structure Interface where
  Addresses : List IPNet
  ListenPort : Nat
  PrivateKey : Key
  DNS : List IP
  deriving DecidableEq, Repr

/-- The type `wireguardtypes.Endpoint`. -/
structure Endpoint where
  Host : String
  Port : Nat
  deriving DecidableEq, Repr

/-- The type `wireguardtypes.Peer`. -/
structure Peer where
  PublicKey : Key
  AllowedIPs : List IPNet
  Endpoint : Endpoint
  PersistentKeepalive : Nat
  deriving DecidableEq, Repr

/-- The type `wireguardtypes.Config`. -/
structure Config where
  Name : String
  Interface : Interface
  Peers : List Peer
  deriving DecidableEq, Repr

/-- The fields of `requests.Connect` that the handler reads. `Info` holds the
`len(req.Info)` bytes of the blob and `InfoSpare` the bytes of its backing
array between length and capacity, which a slice expression can reach. -/
structure ConnectReq where
  ID : Nat
  Info : List Byte
  InfoSpare : List Byte
  Keys : List (List Byte)
  Resolvers : List IP
  deriving DecidableEq, Repr

/-- The type `clitypes.ServiceStatus`, the only persisted entity. -/
structure ServiceStatus where
  ID : Nat
  IFace : String
  deriving DecidableEq, Repr

/-- The constructor `clitypes.NewServiceStatus()`: the zero record. -/
def NewServiceStatus : ServiceStatus := ⟨0, ""⟩

/-! ## Byte-level helpers (Go built-ins and standard library) -/

/-- Go slice expression `s[lo:hi]` on a slice with elements `s` and spare
capacity `spare`: the bounds must satisfy `lo ≤ hi ≤ cap(s)`, where
`cap(s) = len(s) + len(spare)`, and the result has the elements of the backing
array from `lo` to `hi`; `none` stands for the run-time panic on out-of-range
bounds. -/
def slice (s spare : List Byte) (lo hi : Nat) : Option (List Byte) :=
  if lo ≤ hi ∧ hi ≤ s.length + spare.length then
    some (((s ++ spare).drop lo).take (hi - lo))
  else none

/-- Go `binary.BigEndian.Uint16(b)`: `uint16(b[1]) | uint16(b[0])<<8`, a panic
when `b` has fewer than two bytes. -/
def Uint16 (b : List Byte) : Option Nat :=
  match b with
  | b0 :: b1 :: _ => some ((b1.val ||| (b0.val <<< 8)) % 2 ^ 16)
  | _ => none

/-- Go `net.IP.String()` on a 4-byte address: dotted decimal. -/
def dotted (a b c d : Byte) : String :=
  toString a.val ++ "." ++ toString b.val ++ "." ++ toString c.val ++ "." ++ toString d.val

/-- Go `net.IP(b).String()` for the slices the handler passes, which have
length 4; other lengths are not produced by the handler. -/
def ipString (ip : IP) : Option String :=
  match ip with
  | [a, b, c, d] => some (dotted a b c d)
  | _ => none

/-- The 16-byte form in which Go `net.ParseIP` returns an IPv4 address. -/
def v4InV6 (a b c d : Byte) : IP :=
  [0, 0, 0, 0, 0, 0, 0, 0, 0, 0, 255, 255, a, b, c, d]

/-- Value of `net.ParseIP("10.8.0.1")`. -/
def ip_10_8_0_1 : IP := v4InV6 10 8 0 1

/-- Value of `net.ParseIP("0.0.0.0")`. -/
def ip_0_0_0_0 : IP := v4InV6 0 0 0 0

/-- Value of `net.ParseIP("::")`. -/
def ip_unspecified6 : IP := List.replicate 16 0

/-! ## The configuration literal of `Connect` (service.go lines 80-115) -/

/-- The composite literal `wireGuardConfig` of `Connect`, evaluated in source
order. `dflt` is the constant `wireguardtypes.DefaultInterface`, which is not
among the sources. `none` is a run-time panic (slice bounds, `req.Keys[0]`). -/
def wireGuardConfig (dflt : String) (req : ConnectReq) (listenPort : Nat) : Option Config := do
  let a4 ← slice req.Info req.InfoSpare 0 (0 + 4)
  let a6 ← slice req.Info req.InfoSpare 4 (4 + 16)
  let k0 ← req.Keys[0]?
  let pub ← slice req.Info req.InfoSpare 26 (26 + 32)
  let hostBytes ← slice req.Info req.InfoSpare 20 (20 + 4)
  let host ← ipString hostBytes
  let portBytes ← slice req.Info req.InfoSpare 24 (24 + 2)
  let port ← Uint16 portBytes
  pure
    { Name := dflt
      Interface :=
        { Addresses := [{ IP := a4, Net := 32 }, { IP := a6, Net := 128 }]
          ListenPort := listenPort
          PrivateKey := NewKey k0
          DNS := [ip_10_8_0_1] ++ req.Resolvers }
      Peers :=
        [{ PublicKey := NewKey pub
           AllowedIPs := [{ IP := ip_0_0_0_0, Net := 0 }, { IP := ip_unspecified6, Net := 0 }]
           Endpoint := { Host := host, Port := port }
           PersistentKeepalive := 15 }] }

/-! ## World state, environment and effects -/

/-- The state shared by all handler invocations: the status file under the
daemon home and the tunnel interfaces of the host. -/
structure World where
  /-- content of the status file, `none` when the file does not exist -/
  file : Option ServiceStatus
  /-- names of the interfaces that are up -/
  live : List String
  deriving DecidableEq, Repr

/-- The six hooks of the tunnel service. -/
inductive Hook where
  | PreUp | Up | PostUp | PreDown | Down | PostDown
  deriving DecidableEq, Repr

/-- A call a handler makes to the outside, logged whether it succeeds or not. -/
inductive Effect where
  | load
  | isUp (name : String)
  | freePort
  | save (s : ServiceStatus)
  | hook (h : Hook) (name : String)
  | remove
  | transfer (name : String)
  deriving DecidableEq, Repr

/-- The type `responses.GetStatus`. -/
structure GetStatusResult where
  ID : Nat
  IFace : String
  Upload : Nat
  Download : Nat
  deriving DecidableEq, Repr

/-- What a handler writes: `WriteErrorToResponseBody(w, httpStatus,
NewRestError(code, message))`, `WriteResultToResponseBody(w, httpStatus,
payload)`, or nothing when the handler goroutine panics. -/
inductive Response where
  | error (httpStatus code : Nat) (message : String)
  | result (httpStatus : Nat) (payload : Option GetStatusResult)
  | panic
  deriving DecidableEq, Repr

/-- Result of one handler invocation. -/
structure Outcome where
  resp : Response
  world : World
  trace : List Effect
  deriving DecidableEq, Repr

/-- Everything one handler invocation receives from outside the sources: the
constant `wireguardtypes.DefaultInterface`, the path of the status file
(`filepath.Join(ctx.Home(), clitypes.StatusFilename)`), the outcome of
`requests.Connect.Validate` on a request (`some e` is its error), whether
`LoadFromPath` creates the status file when it is absent, injected I/O failures
of the status file, the result of `cliutils.GetFreeUDPPort`, the outcome of
each hook (`some e` is the hook's error) and the result of `Transfer`. -/
structure Env where
  DefaultInterface : String
  statusFilePath : String
  validateErr : ConnectReq → Option String
  loadCreates : Bool
  loadErr : Option String
  saveErr : Option String
  removeErr : Option String
  freePort : Except String Nat
  hook : Hook → Option String
  transfer : Except String (Nat × Nat)

/-- The method `requests.Connect.Validate` is not among the sources: its
outcome on a request is the parameter `env.validateErr`. -/
def ConnectReq.Validate (env : Env) (req : ConnectReq) : Option String :=
  env.validateErr req

/-- The builder `WithID`. -/
def ServiceStatus.WithID (s : ServiceStatus) (v : Nat) : ServiceStatus := { s with ID := v }

/-- The builder `WithIFace`. -/
def ServiceStatus.WithIFace (s : ServiceStatus) (v : String) : ServiceStatus :=
  { s with IFace := v }

/-- Modelled from the spec: `ServiceStatus.LoadFromPath` is not among the
sources. Section 4.4: "load(path) reads the persisted record, returning an
empty/absent record (not an error) if no file exists"; section 3: the record is
"created (empty) implicitly when absent". Whether the load writes the empty
record to the absent file is the parameter `env.loadCreates`. The result is the
record loaded and the world after the load. The receiver is always a fresh
`NewServiceStatus()`. -/
def LoadFromPath (env : Env) (w : World) : Except String (ServiceStatus × World) :=
  match env.loadErr with
  | some e => .error e
  | none =>
    match w.file with
    | some s => .ok (s, w)
    | none =>
      .ok (NewServiceStatus,
        if env.loadCreates = true then { w with file := some NewServiceStatus } else w)

/-- Modelled from the spec: `ServiceStatus.SaveToPath` is not among the
sources. Section 4.4: "save(path, record) atomically overwrites the record". -/
def SaveToPath (env : Env) (s : ServiceStatus) (w : World) : Except String World :=
  match env.saveErr with
  | some e => .error e
  | none => .ok { w with file := some s }

/-- Go `os.Remove(statusFilePath)`: deletes the file, and fails with the
`*PathError` of the operation when the file does not exist (section 4.4: "fails
if the file does not exist at call time"). -/
def Remove (env : Env) (w : World) : Except String World :=
  match env.removeErr with
  | some e => .error e
  | none =>
    match w.file with
    | none => .error ("remove " ++ env.statusFilePath ++ ": no such file or directory")
    | some _ => .ok { w with file := none }

/-- Modelled from the spec: `service.IsUp()` for the interface `name`
(section 4.3: "liveness probe; does not mutate state"). -/
def IsUp (name : String) (w : World) : Bool := decide (name ∈ w.live)

/-- Modelled from the spec: the hooks of the wireguard service are not among
the sources. Section 4.3 gives the interface the states absent, up, absent: a
successful `Up` makes the interface live, a successful `Down` makes it absent,
the pre/post hooks and a failed hook leave liveness as it is. -/
def runHook (env : Env) (h : Hook) (name : String) (w : World) : Except String World :=
  match env.hook h with
  | some e => .error e
  | none =>
    match h with
    | .Up => .ok { w with live := w.live.insert name }
    | .Down => .ok { w with live := w.live.filter (fun n => n ≠ name) }
    | _ => .ok w

/-- The world after the load of the status record: the record file may have
been created; a failed load changes nothing. -/
def afterLoad (env : Env) (w : World) : World :=
  match LoadFromPath env w with
  | .ok (_, w0) => w0
  | .error _ => w

/-- The liveness probe, logged only when an interface name is recorded. -/
def probe (status : ServiceStatus) : List Effect :=
  if status.IFace ≠ "" then [.isUp status.IFace] else []

/-! ## The handlers (service.go) -/

/-- The handler `Connect`. `r` is the result of `requests.NewConnect(r)`; `w0`
is the world after the load of the status record. -/
def Connect (env : Env) (r : Except String ConnectReq) (w : World) : Outcome :=
  match r with
  | .error e => ⟨.error 400 1001 e, w, []⟩
  | .ok req =>
  match req.Validate env with
  | some e => ⟨.error 400 1002 e, w, []⟩
  | none =>
  match LoadFromPath env w with
  | .error e => ⟨.error 500 1003 e, w, [.load]⟩
  | .ok (status, w0) =>
  if status.IFace ≠ "" ∧ IsUp status.IFace w0 = true then
    ⟨.error 400 1004 ("service is already running on interface " ++ status.IFace), w0,
      [.load, .isUp status.IFace]⟩
  else
  match env.freePort with
  | .error e => ⟨.error 500 1007 e, w0, .load :: probe status ++ [.freePort]⟩
  | .ok listenPort =>
  match wireGuardConfig env.DefaultInterface req listenPort with
  | none => ⟨.panic, w0, .load :: probe status ++ [.freePort]⟩
  | some cfg =>
  let saved := (NewServiceStatus.WithID req.ID).WithIFace cfg.Name
  match SaveToPath env saved w0 with
  | .error e => ⟨.error 500 1008 e, w0, .load :: probe status ++ [.freePort, .save saved]⟩
  | .ok w1 =>
  match runHook env .PreUp cfg.Name w1 with
  | .error e =>
    ⟨.error 500 1009 e, w1,
      .load :: probe status ++ [.freePort, .save saved, .hook .PreUp cfg.Name]⟩
  | .ok w2 =>
  match runHook env .Up cfg.Name w2 with
  | .error e =>
    ⟨.error 500 1010 e, w2,
      .load :: probe status ++
        [.freePort, .save saved, .hook .PreUp cfg.Name, .hook .Up cfg.Name]⟩
  | .ok w3 =>
  match runHook env .PostUp cfg.Name w3 with
  | .error e =>
    ⟨.error 500 1011 e, w3,
      .load :: probe status ++
        [.freePort, .save saved, .hook .PreUp cfg.Name, .hook .Up cfg.Name,
          .hook .PostUp cfg.Name]⟩
  | .ok w4 =>
    ⟨.result 200 none, w4,
      .load :: probe status ++
        [.freePort, .save saved, .hook .PreUp cfg.Name, .hook .Up cfg.Name,
          .hook .PostUp cfg.Name]⟩

/-- Lines 211-219 of `Disconnect`: remove the status file and reply. `t` is
the trace so far. -/
def removeStatus (env : Env) (w : World) (t : List Effect) : Outcome :=
  match Remove env w with
  | .error e => ⟨.error 500 1005 e, w, t ++ [.remove]⟩
  | .ok w1 => ⟨.result 200 none, w1, t ++ [.remove]⟩

/-- The handler `Disconnect`; `w0` is the world after the load of the status
record. -/
def Disconnect (env : Env) (w : World) : Outcome :=
  match LoadFromPath env w with
  | .error e => ⟨.error 500 1001 e, w, [.load]⟩
  | .ok (status, w0) =>
  if status.IFace ≠ "" then
    if IsUp status.IFace w0 = true then
      match runHook env .PreDown status.IFace w0 with
      | .error e =>
        ⟨.error 500 1002 e, w0, [.load, .isUp status.IFace, .hook .PreDown status.IFace]⟩
      | .ok w1 =>
      match runHook env .Down status.IFace w1 with
      | .error e =>
        ⟨.error 500 1003 e, w1,
          [.load, .isUp status.IFace, .hook .PreDown status.IFace,
            .hook .Down status.IFace]⟩
      | .ok w2 =>
      match runHook env .PostDown status.IFace w2 with
      | .error e =>
        ⟨.error 500 1004 e, w2,
          [.load, .isUp status.IFace, .hook .PreDown status.IFace,
            .hook .Down status.IFace, .hook .PostDown status.IFace]⟩
      | .ok w3 =>
        removeStatus env w3
          [.load, .isUp status.IFace, .hook .PreDown status.IFace,
            .hook .Down status.IFace, .hook .PostDown status.IFace]
    else removeStatus env w0 [.load, .isUp status.IFace]
  else removeStatus env w0 [.load]

/-- The handler `GetStatus`; `w0` is the world after the load of the status
record. -/
def GetStatus (env : Env) (w : World) : Outcome :=
  match LoadFromPath env w with
  | .error e => ⟨.error 500 1001 e, w, [.load]⟩
  | .ok (status, w0) =>
  if status.IFace ≠ "" ∧ IsUp status.IFace w0 = true then
    match env.transfer with
    | .error e =>
      ⟨.error 500 1002 e, w0, [.load, .isUp status.IFace, .transfer status.IFace]⟩
    | .ok (upload, download) =>
      ⟨.result 200 (some ⟨status.ID, status.IFace, upload, download⟩), w0,
        [.load, .isUp status.IFace, .transfer status.IFace]⟩
  else ⟨.result 200 none, w0, .load :: probe status⟩

/-! ## The connect command (cmd/connect.go) -/

/-- The envelope `clitypes.RestResponseBody` as the command reads it: the
message of a non-null `error`, and `result` when it is a JSON string. -/
structure RestResponseBody where
  Error : Option String
  Result : Option String
  deriving DecidableEq, Repr

/-- How `RunE` ends: `nil`, an error, or a run-time panic. -/
inductive CmdResult where
  | ok
  | error (message : String)
  | panic
  deriving DecidableEq, Repr

/-- Result of one run of the command: what `RunE` returned and the local
state it left. -/
structure CmdOutcome where
  result : CmdResult
  world : World
  deriving DecidableEq, Repr

/-- The outcome of every fallible call of `RunE` that is made outside the
sources, in source order, and the environments of the three daemon handlers
the command may reach. -/
structure CmdEnv where
  /-- result of `strconv.ParseUint(args[0], 10, 64)` -/
  id : Except String Nat
  /-- result of `hubtypes.NodeAddressFromBech32(args[1])` -/
  nodeAddr : Except String String
  /-- result of reading the rating flag -/
  rating : Except String Nat
  /-- result of `parseResolversFromCmd(cmd)` -/
  resolvers : Except String (List IP)
  /-- result of `context.NewTxContextFromCmd(cmd)` -/
  txContext : Except String Unit
  /-- result of `context.NewServiceContextFromCmd(cmd)` -/
  serviceContext : Except String Unit
  /-- environment of the daemon while it serves `sc.GetStatus()` -/
  statusEnv : Env
  /-- environment of the daemon while it serves `sc.Disconnect()` -/
  disconnectEnv : Env
  /-- result of `tc.GetPasswordAndAddress`: password and address -/
  passwordAndAddress : Except String (String × String)
  /-- result of the first `tc.QueryActiveSession(from)`: the session id, if any -/
  activeSession1 : Except String (Option Nat)
  /-- result of `tc.SignMessagesAndBroadcastTx` -/
  broadcast : Except String Unit
  /-- result of the second `tc.QueryActiveSession(from)` -/
  activeSession2 : Except String (Option Nat)
  /-- result of `tc.QueryNode(nodeAddr)`: the remote URL -/
  node : Except String String
  /-- result of `wireguardtypes.NewPrivateKey()`: the key bytes -/
  privateKey : Except String (List Byte)
  /-- result of `tc.SignMessage` -/
  signMessage : Except String String
  /-- result of base64-decoding the signature -/
  signature : Except String (List Byte)
  /-- result of `json.Marshal` of the request body -/
  marshal : Except String Unit
  /-- result of `tc.Post(endpoint, ...)` -/
  post : Except String Unit
  /-- result of decoding the response body into the envelope -/
  body : Except String RestResponseBody
  /-- Go `fmt.Errorf(format)` applied to a message used as the format -/
  errorf : String → String
  /-- base64 decoding of the result string -/
  info : String → Except String (List Byte)
  /-- spare capacity of `req.Info` once `requests.NewConnect` has decoded the
  request in the daemon -/
  infoSpare : List Byte
  /-- environment of the daemon while it serves `sc.Connect(...)` -/
  connectEnv : Env

/-- Modelled from the spec: `ServiceContext.GetStatus` is not among the
sources. Section 6: get-status has "no input; response: identifier, interface
name, upload bytes, download bytes, or empty when inactive"; an error envelope
is returned as the error. -/
def scGetStatus (env : Env) (w : World) : Except String ServiceStatus × World :=
  let o := GetStatus env w
  match o.resp with
  | .error _ _ m => (.error m, o.world)
  | .result _ (some r) => (.ok ⟨r.ID, r.IFace⟩, o.world)
  | .result _ none => (.ok NewServiceStatus, o.world)
  | .panic => (.error "EOF", o.world)

/-- Modelled from the spec: `ServiceContext.Disconnect` is not among the
sources. Section 6: disconnect has "no input; same response envelope"; an
error envelope is returned as the error. -/
def scDisconnect (env : Env) (w : World) : Option String × World :=
  let o := Disconnect env w
  match o.resp with
  | .error _ _ m => (some m, o.world)
  | .result _ _ => (none, o.world)
  | .panic => (some "EOF", o.world)

/-- Modelled from the spec: `ServiceContext.Connect` is not among the
sources. Section 6: connect takes "session/identifier, 58-byte info blob, local
private key bytes, optional resolver IP list" and answers "success/empty or
error with a numeric code and message". -/
def scConnect (env : Env) (req : ConnectReq) (w : World) : CmdOutcome :=
  let o := Connect env (.ok req) w
  match o.resp with
  | .error _ _ m => ⟨.error m, o.world⟩
  | .result _ _ => ⟨.ok, o.world⟩
  | .panic => ⟨.error "EOF", o.world⟩

/-- Lines 90-208 of `RunE`: everything after the optional disconnect. `id` and
`resolvers` are the values parsed at lines 49 and 64. None of the steps before
`sc.Connect` touches the local state `w`. -/
def negotiateAndConnect (ce : CmdEnv) (id : Nat) (resolvers : List IP) (w : World) :
    CmdOutcome :=
  match ce.passwordAndAddress with
  | .error e => ⟨.error e, w⟩
  | .ok _ =>
  match ce.activeSession1 with
  | .error e => ⟨.error e, w⟩
  | .ok _ =>
  match ce.broadcast with
  | .error e => ⟨.error e, w⟩
  | .ok _ =>
  match ce.activeSession2 with
  | .error e => ⟨.error e, w⟩
  | .ok none => ⟨.error ("active session does not exist for subscription " ++ toString id), w⟩
  | .ok (some sessionId) =>
  match ce.node with
  | .error e => ⟨.error e, w⟩
  | .ok _ =>
  match ce.privateKey with
  | .error e => ⟨.error e, w⟩
  | .ok wgPrivateKey =>
  match ce.signMessage with
  | .error e => ⟨.error e, w⟩
  | .ok _ =>
  match ce.signature with
  | .error e => ⟨.error e, w⟩
  | .ok _ =>
  match ce.marshal with
  | .error e => ⟨.error e, w⟩
  | .ok _ =>
  match ce.post with
  | .error e => ⟨.error e, w⟩
  | .ok _ =>
  match ce.body with
  | .error e => ⟨.error e, w⟩
  | .ok resp =>
  match resp.Error with
  | some m => ⟨.error (ce.errorf m), w⟩
  | none =>
  match resp.Result with
  | none => ⟨.panic, w⟩
  | some r =>
  match ce.info r with
  | .error e => ⟨.error e, w⟩
  | .ok info =>
    scConnect ce.connectEnv ⟨sessionId, info, ce.infoSpare, [wgPrivateKey], resolvers⟩ w

/-- The `RunE` body of `ConnectCmd`. -/
def ConnectCmd (ce : CmdEnv) (w : World) : CmdOutcome :=
  match ce.id with
  | .error e => ⟨.error e, w⟩
  | .ok id =>
  match ce.nodeAddr with
  | .error e => ⟨.error e, w⟩
  | .ok _ =>
  match ce.rating with
  | .error e => ⟨.error e, w⟩
  | .ok _ =>
  match ce.resolvers with
  | .error e => ⟨.error e, w⟩
  | .ok resolvers =>
  match ce.txContext with
  | .error e => ⟨.error e, w⟩
  | .ok _ =>
  match ce.serviceContext with
  | .error e => ⟨.error e, w⟩
  | .ok _ =>
  match scGetStatus ce.statusEnv w with
  | (.error e, w1) => ⟨.error e, w1⟩
  | (.ok status, w1) =>
  if status.IFace ≠ "" then
    match scDisconnect ce.disconnectEnv w1 with
    | (some e, w2) => ⟨.error e, w2⟩
    | (none, w2) => negotiateAndConnect ce id resolvers w2
  else negotiateAndConnect ce id resolvers w1

/-! ## The step relation of the daemon -/

/-- The three operations of the daemon. -/
inductive Op where
  | connect | disconnect | getStatus
  deriving DecidableEq, Repr

/-- One handler invocation, with any request and any outcome of the outside
calls: the world before, the operation, its outcome. -/
inductive Step : World → Op → Outcome → Prop where
  | connect (env : Env) (r : Except String ConnectReq) (w : World) :
      Step w .connect (Connect env r w)
  | disconnect (env : Env) (w : World) : Step w .disconnect (Disconnect env w)
  | getStatus (env : Env) (w : World) : Step w .getStatus (GetStatus env w)

/-- The outcomes after which the status store can name an interface that is
not live: a Connect that answers 1009 or 1010 (preUp or up failed after the
record was persisted), and a Disconnect that answers with an error after it
has called postDown (so after down succeeded). -/
def leavesStale (op : Op) (o : Outcome) : Bool :=
  match op, o.resp with
  | .connect, .error _ code _ => code == 1009 || code == 1010
  | .disconnect, .error _ _ _ =>
    o.trace.any (fun e => match e with
      | .hook .PostDown _ => true
      | _ => false)
  | _, _ => false

/-- The outcomes that settle the status store: a Connect or a Disconnect that
answers with success. -/
def settles (op : Op) (o : Outcome) : Bool :=
  match op, o.resp with
  | .connect, .result _ _ => true
  | .disconnect, .result _ _ => true
  | _, _ => false

/-- The state of a fresh host: no status file, no interface. -/
def World.init : World := ⟨none, []⟩

/-- States reachable from the fresh host by handler invocations, with a flag
that says whether an outcome that `leavesStale` has occurred since the last
outcome that `settles` the store. -/
inductive Reachable : World → Bool → Prop where
  | init : Reachable World.init false
  | step {w : World} {b : Bool} {op : Op} {o : Outcome} :
      Reachable w b → Step w op o →
      Reachable o.world (if leavesStale op o = true then true
        else if settles op o = true then false else b)

/-- The invariant of section 3 as the spec words it: a non-empty interface
name in the status store names a live interface. -/
def StoreNamesLive (w : World) : Prop :=
  ∀ s, w.file = some s → s.IFace ≠ "" → IsUp s.IFace w = true

/-- An environment in which nothing fails, validation asks for a blob of 58
bytes and the load creates nothing, used for concrete runs. The interface
name, the path and the port are sample values. -/
def sampleEnv : Env :=
  { DefaultInterface := "wg0"
    statusFilePath := "/home/user/.sentinelcli/status.json"
    validateErr := fun r =>
      if r.Info.length ≠ 58 then some "info length must be 58" else none
    loadCreates := false
    loadErr := none
    saveErr := none
    removeErr := none
    freePort := .ok 51820
    hook := fun _ => none
    transfer := .ok (0, 0) }

/-- The 32-byte key `K` of the example scenario: bytes 0, 1, ..., 31. -/
def sampleKey : List Byte := (List.range 32).map (fun i => Fin.ofNat i)

/-- The info blob of the example scenario of section 8:
10.8.0.5, fd00::5, 203.0.113.9, port 0x2710, key `K`. -/
def sampleInfo : List Byte :=
  [10, 8, 0, 5] ++ [0xfd, 0, 0, 0, 0, 0, 0, 0, 0, 0, 0, 0, 0, 0, 0, 5] ++ [203, 0, 113, 9] ++
    [0x27, 0x10] ++ sampleKey

/-- A valid connect request carrying the sample blob. -/
def sampleReq : ConnectReq := ⟨7, sampleInfo, [], [sampleKey], []⟩

/-- The sample environment with a failing `Up` hook. -/
def failUpEnv : Env :=
  { sampleEnv with hook := fun h => if h = .Up then some "up failed" else none }

/-- The sample environment with a failing port allocation. -/
def noPortEnv : Env :=
  { sampleEnv with freePort := .error "no free udp port" }

/-- The sample environment with a load that creates the status file when it is
absent. -/
def creatingEnv : Env :=
  { sampleEnv with loadCreates := true }

/-- Every call of `RunE` before the POST to the node succeeds, and the second
session query finds a session. -/
def ReachesPost (ce : CmdEnv) : Prop :=
  ce.id.isOk = true ∧ ce.nodeAddr.isOk = true ∧ ce.rating.isOk = true ∧
  ce.resolvers.isOk = true ∧ ce.txContext.isOk = true ∧ ce.serviceContext.isOk = true ∧
  ce.passwordAndAddress.isOk = true ∧ ce.activeSession1.isOk = true ∧
  ce.broadcast.isOk = true ∧ (∃ sid, ce.activeSession2 = .ok (some sid)) ∧
  ce.node.isOk = true ∧ ce.privateKey.isOk = true ∧ ce.signMessage.isOk = true ∧
  ce.signature.isOk = true ∧ ce.marshal.isOk = true

/-- Remote session negotiation fails with the error `e`: the POST to the node
fails with `e`, or the response envelope carries a non-null error whose message
gives `e` through `fmt.Errorf`. -/
def NegotiationFails (ce : CmdEnv) (e : String) : Prop :=
  ce.post = .error e ∨
  (ce.post.isOk = true ∧ ∃ resp m, ce.body = .ok resp ∧ resp.Error = some m ∧ e = ce.errorf m)

/-- A run of the command in which every call succeeds except the POST to the
node. -/
def postFailsCmdEnv : CmdEnv :=
  { id := .ok 7
    nodeAddr := .ok "sentnode1"
    rating := .ok 0
    resolvers := .ok []
    txContext := .ok ()
    serviceContext := .ok ()
    statusEnv := sampleEnv
    disconnectEnv := sampleEnv
    passwordAndAddress := .ok ("password", "sent1")
    activeSession1 := .ok none
    broadcast := .ok ()
    activeSession2 := .ok (some 42)
    node := .ok "https://node.example"
    privateKey := .ok sampleKey
    signMessage := .ok "c2ln"
    signature := .ok []
    marshal := .ok ()
    post := .error "connection refused"
    body := .ok ⟨none, none⟩
    errorf := fun m => m
    info := fun _ => .ok sampleInfo
    infoSpare := []
    connectEnv := sampleEnv }

/-- The hook calls of a trace, in order. -/
def hooksOf (t : List Effect) : List (Hook × String) :=
  t.filterMap (fun e => match e with
    | .hook h n => some (h, n)
    | _ => none)

/-- The outcome the environment gives to a step of the bring-up sequence of
Connect: the save of the status record or a hook (`some e` is the error). -/
def Env.stepErr (env : Env) : Effect → Option String
  | .save _ => env.saveErr
  | .hook h _ => env.hook h
  | _ => none

/-- The four steps of the bring-up sequence of Connect (service.go lines
126-154) for request identifier `id` and interface `name`, in source order. -/
def bringUpSteps (id : Nat) (name : String) : List Effect :=
  [.save ⟨id, name⟩, .hook .PreUp name, .hook .Up name, .hook .PostUp name]

/-- The sample environment with a failing `Down` hook. -/
def failDownEnv : Env :=
  { sampleEnv with hook := fun h => if h = .Down then some "down failed" else none }


/-! ## Lemmas on the byte-level helpers -/

theorem slice_eq (s spare : List Byte) (lo hi : Nat) (hlo : lo ≤ hi) (hhi : hi ≤ s.length) :
    slice s spare lo hi = some ((s.drop lo).take (hi - lo)) := by
  have h1 : lo ≤ hi ∧ hi ≤ s.length + spare.length := ⟨hlo, by omega⟩
  simp only [slice, if_pos h1]
  rw [List.drop_append_of_le_length (by omega),
    List.take_append_of_le_length (by simp only [List.length_drop]; omega)]

theorem getD_drop (l : List Byte) (n i : Nat) : (l.drop n).getD i 0 = l.getD (n + i) 0 := by
  simp [List.getD_eq_getElem?_getD, List.getElem?_drop]

theorem take_four (l : List Byte) (h : 4 ≤ l.length) :
    l.take 4 = [l.getD 0 0, l.getD 1 0, l.getD 2 0, l.getD 3 0] := by
  match l, h with
  | a :: b :: c :: d :: _, _ => simp

theorem take_two (l : List Byte) (h : 2 ≤ l.length) :
    l.take 2 = [l.getD 0 0, l.getD 1 0] := by
  match l, h with
  | a :: b :: _, _ => simp

theorem Uint16_pair (b0 b1 : Byte) (t : List Byte) :
    Uint16 (b0 :: b1 :: t) = some (256 * b0.val + b1.val) := by
  have h0 := b0.isLt
  have h1 : b1.val < 2 ^ 8 := b1.isLt
  simp only [Uint16, Nat.shiftLeft_eq]
  rw [Nat.lor_comm, Nat.mul_comm, ← Nat.mul_add_lt_is_or h1]
  congr 1
  omega

/-- The value of the configuration literal on a blob of at least 58 bytes,
whatever its spare capacity. -/
theorem wireGuardConfig_eq (dflt : String) (id : Nat) (info spare : List Byte) (k : List Byte)
    (ks : List (List Byte)) (rs : List IP) (p : Nat) (h : 58 ≤ info.length) :
    wireGuardConfig dflt ⟨id, info, spare, k :: ks, rs⟩ p = some
      { Name := dflt
        Interface :=
          { Addresses := [{ IP := info.take 4, Net := 32 },
                          { IP := (info.drop 4).take 16, Net := 128 }]
            ListenPort := p
            PrivateKey := NewKey k
            DNS := ip_10_8_0_1 :: rs }
        Peers :=
          [{ PublicKey := NewKey ((info.drop 26).take 32)
             AllowedIPs := [{ IP := ip_0_0_0_0, Net := 0 }, { IP := ip_unspecified6, Net := 0 }]
             Endpoint :=
               { Host := dotted (info.getD 20 0) (info.getD 21 0) (info.getD 22 0) (info.getD 23 0)
                 Port := 256 * (info.getD 24 0).val + (info.getD 25 0).val }
             PersistentKeepalive := 15 }] } := by
  have e1 : (info.drop 20).take 4 =
      [info.getD 20 0, info.getD 21 0, info.getD 22 0, info.getD 23 0] := by
    rw [take_four _ (by simp; omega)]; simp [getD_drop]
  have e2 : (info.drop 24).take 2 = [info.getD 24 0, info.getD 25 0] := by
    rw [take_two _ (by simp; omega)]; simp [getD_drop]
  simp only [wireGuardConfig]
  rw [slice_eq _ _ 0 _ (by omega) (by omega), slice_eq _ _ 4 _ (by omega) (by omega),
    slice_eq _ _ 26 _ (by omega) (by omega), slice_eq _ _ 20 _ (by omega) (by omega),
    slice_eq _ _ 24 _ (by omega) (by omega)]
  simp [e1, e2, ipString, Uint16_pair]

/-- A slice that ends within the first 58 bytes sees neither the rest of the
blob nor its spare capacity. -/
theorem slice_take (s spare spare2 : List Byte) (lo hi : Nat) (hhi : hi ≤ 58)
    (hs : 58 ≤ s.length) : slice (s.take 58) spare2 lo hi = slice s spare lo hi := by
  by_cases hlo : lo ≤ hi
  · rw [slice_eq _ _ _ _ hlo (by simp; omega), slice_eq _ _ _ _ hlo (by omega)]
    rw [List.drop_take, List.take_take]
    congr 2
    omega
  · simp [slice, hlo]

/-- The configuration literal reads the first 58 bytes of the blob only. -/
theorem wireGuardConfig_take (dflt : String) (id : Nat) (info spare spare2 : List Byte)
    (keys : List (List Byte)) (rs : List IP) (p : Nat) (h : 58 ≤ info.length) :
    wireGuardConfig dflt ⟨id, info.take 58, spare2, keys, rs⟩ p =
      wireGuardConfig dflt ⟨id, info, spare, keys, rs⟩ p := by
  simp only [wireGuardConfig]
  rw [slice_take _ spare _ 0 _ (by omega) h, slice_take _ spare _ 4 _ (by omega) h,
    slice_take _ spare _ 26 _ (by omega) h, slice_take _ spare _ 20 _ (by omega) h,
    slice_take _ spare _ 24 _ (by omega) h]

/-- The configuration literal, when it is built, carries the default name. -/
theorem wireGuardConfig_name (dflt : String) (req : ConnectReq) (p : Nat) (cfg : Config)
    (h : wireGuardConfig dflt req p = some cfg) : cfg.Name = dflt := by
  simp only [wireGuardConfig, Option.bind_eq_bind, Option.bind_eq_some, Option.pure_def,
    Option.some.injEq] at h
  obtain ⟨_, _, _, _, _, _, _, _, _, _, _, _, _, _, _, _, rfl⟩ := h
  rfl

/-- What a successful load returns: the record of the file, or the empty record
when there is no file, which the load may then have created; the interfaces
are untouched. -/
theorem LoadFromPath_ok (env : Env) (w w0 : World) (s : ServiceStatus)
    (h : LoadFromPath env w = .ok (s, w0)) :
    w0.live = w.live ∧ env.loadErr = none ∧
    ((w.file = some s ∧ w0 = w) ∨
      (w.file = none ∧ s = NewServiceStatus ∧
        w0 = if env.loadCreates = true then ⟨some NewServiceStatus, w.live⟩ else w)) := by
  simp only [LoadFromPath] at h
  cases hl : env.loadErr with
  | some e => rw [hl] at h; cases h
  | none =>
    rw [hl] at h
    cases hf : w.file with
    | some s1 =>
      rw [hf] at h
      simp only [Except.ok.injEq, Prod.mk.injEq] at h
      obtain ⟨rfl, rfl⟩ := h
      exact ⟨rfl, rfl, Or.inl ⟨rfl, rfl⟩⟩
    | none =>
      rw [hf] at h
      simp only [Except.ok.injEq, Prod.mk.injEq] at h
      obtain ⟨rfl, rfl⟩ := h
      refine ⟨?_, rfl, Or.inr ⟨rfl, rfl, rfl⟩⟩
      split <;> rfl

/-- A loaded record with a non-empty interface name is the record of the file,
and the load changed nothing. -/
theorem LoadFromPath_named (env : Env) (w w0 : World) (s : ServiceStatus)
    (h : LoadFromPath env w = .ok (s, w0)) (hn : s.IFace ≠ "") :
    w.file = some s ∧ w0 = w := by
  rcases (LoadFromPath_ok env w w0 s h).2.2 with h1 | ⟨_, h2, _⟩
  · exact h1
  · rw [h2] at hn; exact absurd rfl hn

/-- The liveness probe gives the same answer before and after the load. -/
theorem IsUp_afterLoad (env : Env) (w w0 : World) (s : ServiceStatus) (n : String)
    (h : LoadFromPath env w = .ok (s, w0)) : IsUp n w0 = IsUp n w := by
  simp only [IsUp, (LoadFromPath_ok env w w0 s h).1]

/-- What Connect leaves behind, by response. -/
theorem Connect_world (env : Env) (r : Except String ConnectReq) (w : World) :
    (((Connect env r w).world = w ∨ (Connect env r w).world = afterLoad env w) ∧
      (∀ e, (Connect env r w).resp ≠ .error 500 1009 e) ∧
      (∀ e, (Connect env r w).resp ≠ .error 500 1010 e) ∧
      (∀ e, (Connect env r w).resp ≠ .error 500 1011 e) ∧
      (∀ c p, (Connect env r w).resp ≠ .result c p)) ∨
    (∃ req e, r = .ok req ∧
      ((Connect env r w).resp = .error 500 1009 e ∨ (Connect env r w).resp = .error 500 1010 e) ∧
      (Connect env r w).world = ⟨some ⟨req.ID, env.DefaultInterface⟩, w.live⟩) ∨
    (∃ req, r = .ok req ∧
      ((∃ e, (Connect env r w).resp = .error 500 1011 e) ∨
        (Connect env r w).resp = .result 200 none) ∧
      (Connect env r w).world =
        ⟨some ⟨req.ID, env.DefaultInterface⟩, w.live.insert env.DefaultInterface⟩) := by
  cases r with
  | error e => left; simp [Connect]
  | ok req =>
    simp only [Connect, afterLoad]
    cases req.Validate env with
    | some e => left; simp
    | none =>
    cases hl : LoadFromPath env w with
    | error e => left; simp
    | ok pr =>
    obtain ⟨status, w0⟩ := pr
    have hlive := (LoadFromPath_ok env w w0 status hl).1
    simp only [SaveToPath, runHook]
    split
    · left; simp
    · cases env.freePort with
      | error e => left; simp
      | ok p =>
      simp only []
      cases hb : wireGuardConfig env.DefaultInterface req p with
      | none => left; simp
      | some cfg =>
      have hname := wireGuardConfig_name _ _ _ _ hb
      have hst : (NewServiceStatus.WithID req.ID).WithIFace env.DefaultInterface =
          ⟨req.ID, env.DefaultInterface⟩ := by
        simp [ServiceStatus.WithID, ServiceStatus.WithIFace, NewServiceStatus]
      simp only [hname, hst, hlive]
      cases env.saveErr with
      | some e => left; simp
      | none =>
      cases env.hook .PreUp with
      | some e => right; left; exact ⟨req, e, rfl, Or.inl rfl, rfl⟩
      | none =>
      cases env.hook .Up with
      | some e => right; left; exact ⟨req, e, rfl, Or.inr rfl, rfl⟩
      | none =>
      cases env.hook .PostUp with
      | some e => right; right; exact ⟨req, rfl, Or.inl ⟨e, rfl⟩, rfl⟩
      | none => right; right; exact ⟨req, rfl, Or.inr rfl, rfl⟩

/-- GetStatus leaves the world as the load left it. -/
theorem GetStatus_world (env : Env) (w : World) : (GetStatus env w).world = afterLoad env w := by
  simp only [GetStatus, afterLoad]
  repeat' split
  all_goals simp_all

/-- A failed negotiation ends lines 90-208 with that error, the world untouched. -/
theorem negotiate_fails (ce : CmdEnv) (id : Nat) (rs : List IP) (w : World) (e : String)
    (hpre : ReachesPost ce) (hfail : NegotiationFails ce e) :
    negotiateAndConnect ce id rs w = ⟨.error e, w⟩ := by
  obtain ⟨_, _, _, _, _, _, h1, h2, h3, ⟨sid, h4⟩, h5, h6, h7, h8, h9⟩ := hpre
  simp only [negotiateAndConnect, h4]
  cases q1 : ce.passwordAndAddress <;> simp [q1, Except.isOk, Except.toBool] at h1
  cases q2 : ce.activeSession1 <;> simp [q2, Except.isOk, Except.toBool] at h2
  cases q3 : ce.broadcast <;> simp [q3, Except.isOk, Except.toBool] at h3
  cases q5 : ce.node <;> simp [q5, Except.isOk, Except.toBool] at h5
  cases q6 : ce.privateKey <;> simp [q6, Except.isOk, Except.toBool] at h6
  cases q7 : ce.signMessage <;> simp [q7, Except.isOk, Except.toBool] at h7
  cases q8 : ce.signature <;> simp [q8, Except.isOk, Except.toBool] at h8
  cases q9 : ce.marshal <;> simp [q9, Except.isOk, Except.toBool] at h9
  simp only []
  rcases hfail with hp | ⟨hp, resp, m, hb, hm, he⟩
  · simp only [hp]
  · cases q10 : ce.post <;> simp [q10, Except.isOk, Except.toBool] at hp
    simp only [hb, hm, he]

/-- A GetStatus payload always carries a non-empty interface name. -/
theorem GetStatus_payload (env : Env) (w : World) (r : GetStatusResult)
    (h : (GetStatus env w).resp = .result 200 (some r)) : r.IFace ≠ "" := by
  revert h
  simp only [GetStatus]
  split
  · intro h; cases h
  · split
    · rename_i hc
      split
      · intro h; cases h
      · intro h
        simp only [Response.result.injEq, Option.some.injEq, true_and] at h
        rw [← h]
        exact hc.1
    · intro h; cases h

/-- The world after the load is the world before it, except that an absent
status file may have been created with the empty record. -/
theorem afterLoad_eq (env : Env) (w : World) :
    afterLoad env w = w ∨ (w.file = none ∧ afterLoad env w = ⟨some NewServiceStatus, w.live⟩) := by
  simp only [afterLoad]
  cases hl : LoadFromPath env w with
  | error e => left; rfl
  | ok pr =>
    obtain ⟨s, w0⟩ := pr
    rcases (LoadFromPath_ok env w w0 s hl).2.2 with h1 | ⟨h1, _, h3⟩
    · left; exact h1.2
    · simp only []
      rw [h3]
      split
      · right; exact ⟨h1, rfl⟩
      · left; rfl

/-- With no status file and a load that creates nothing, Disconnect answers
with an error: `os.Remove` fails on the missing file (error 1005), unless the
load failed before (error 1001). -/
theorem Disconnect_missing_file (env : Env) (w : World) (h : w.file = none)
    (hc : env.loadCreates = false) :
    ∃ code msg, (Disconnect env w).resp = .error 500 code msg ∧ (Disconnect env w).world = w := by
  simp only [Disconnect, LoadFromPath, h, hc]
  cases hl : env.loadErr with
  | some e => exact ⟨1001, e, rfl, rfl⟩
  | none =>
    simp only [NewServiceStatus, ne_eq, not_true_eq_false, ↓reduceIte,
      removeStatus, Remove, h, Bool.false_eq_true]
    cases hr : env.removeErr with
    | some e => exact ⟨1005, e, rfl, rfl⟩
    | none => exact ⟨1005, _, rfl, rfl⟩

/-- The load changes nothing when the status file exists or when the load
creates nothing. -/
theorem afterLoad_same (env : Env) (w : World)
    (h : w.file ≠ none ∨ env.loadCreates = false) : afterLoad env w = w := by
  rcases afterLoad_eq env w with h1 | ⟨h1, h2⟩
  · exact h1
  · rcases h with h | h
    · exact absurd h1 h
    · simp only [afterLoad, LoadFromPath, h1, h]
      cases env.loadErr <;> simp

/-- The load keeps the invariant of the status store: a record it creates is
empty. -/
theorem StoreNamesLive_afterLoad (env : Env) (w : World) (h : StoreNamesLive w) :
    StoreNamesLive (afterLoad env w) := by
  rcases afterLoad_eq env w with h1 | ⟨_, h2⟩
  · rw [h1]; exact h
  · rw [h2]
    intro s hs hn
    simp only [Option.some.injEq] at hs
    rw [← hs] at hn
    exact absurd rfl hn

/-- After a Connect: the outcome is one that leaves the store stale, or the
invariant of the status store holds outright, or the world is the one before
the call or the one the load left. -/
theorem Connect_cases (env : Env) (r : Except String ConnectReq) (w : World) :
    leavesStale .connect (Connect env r w) = true ∨
    StoreNamesLive (Connect env r w).world ∨
    ((Connect env r w).world = w ∨ (Connect env r w).world = afterLoad env w) := by
  rcases Connect_world env r w with h | ⟨req, e, _, h1 | h1, _⟩ | ⟨req, _, _, h⟩
  · right; right; exact h.1
  · left; simp [leavesStale, h1]
  · left; simp [leavesStale, h1]
  · right; left
    rw [h]
    intro s hs _
    simp only [Option.some.injEq] at hs
    rw [← hs]
    simp [IsUp]

/-- A Connect that answers with success establishes the invariant of the
status store. -/
theorem Connect_settles (env : Env) (r : Except String ConnectReq) (w : World)
    (h : settles .connect (Connect env r w) = true) : StoreNamesLive (Connect env r w).world := by
  rcases Connect_world env r w with h1 | ⟨req, e, _, h1 | h1, _⟩ | ⟨req, _, _, h2⟩
  · exfalso
    revert h
    simp only [settles]
    split <;> simp_all
  · simp [settles, h1] at h
  · simp [settles, h1] at h
  · rw [h2]
    intro s hs _
    simp only [Option.some.injEq] at hs
    rw [← hs]
    simp [IsUp]

/-- After a Disconnect: the outcome is one that leaves the store stale, or the
answer is success and no record is left, or the world is the one before the
call or the one the load left. -/
theorem Disconnect_cases (env : Env) (w : World) :
    leavesStale .disconnect (Disconnect env w) = true ∨
    (settles .disconnect (Disconnect env w) = true ∧ (Disconnect env w).world.file = none) ∨
    (settles .disconnect (Disconnect env w) = false ∧
      ((Disconnect env w).world = w ∨ (Disconnect env w).world = afterLoad env w)) := by
  obtain ⟨o, ho⟩ : ∃ o, Disconnect env w = o := ⟨_, rfl⟩
  rw [ho]
  simp only [Disconnect, runHook, removeStatus, Remove, afterLoad] at ho ⊢
  cases hl : LoadFromPath env w with
  | error e0 =>
    rw [hl] at ho; subst ho
    right; right; simp [settles]
  | ok pr =>
  obtain ⟨s, w0⟩ := pr
  rw [hl] at ho
  simp only [] at ho ⊢
  by_cases h1 : s.IFace ≠ ""
  · by_cases h2 : IsUp s.IFace w0 = true
    · rw [if_pos h1, if_pos h2] at ho
      cases h3 : env.hook .PreDown with
      | some e3 =>
        rw [h3] at ho; subst ho
        right; right; simp [settles]
      | none =>
      rw [h3] at ho
      simp only [] at ho
      cases h4 : env.hook .Down with
      | some e4 =>
        rw [h4] at ho; subst ho
        right; right; simp [settles]
      | none =>
      rw [h4] at ho
      simp only [] at ho
      cases h5 : env.hook .PostDown with
      | some e5 =>
        rw [h5] at ho; subst ho
        left; simp [leavesStale]
      | none =>
      rw [h5] at ho
      simp only [] at ho
      cases h6 : env.removeErr with
      | some e6 =>
        rw [h6] at ho; subst ho
        left; simp [leavesStale]
      | none =>
      rw [h6] at ho
      simp only [] at ho
      cases hf : w0.file with
      | none =>
        rw [hf] at ho; subst ho
        left; simp [leavesStale]
      | some s0 =>
        rw [hf] at ho; subst ho
        right; left; simp [settles]
    · rw [if_pos h1, if_neg h2] at ho
      cases h6 : env.removeErr with
      | some e6 =>
        rw [h6] at ho; subst ho
        right; right; simp [settles]
      | none =>
      rw [h6] at ho
      simp only [] at ho
      cases hf : w0.file with
      | none =>
        rw [hf] at ho; subst ho
        right; right; simp [settles]
      | some s0 =>
        rw [hf] at ho; subst ho
        right; left; simp [settles]
  · rw [if_neg h1] at ho
    cases h6 : env.removeErr with
    | some e6 =>
      rw [h6] at ho; subst ho
      right; right; simp [settles]
    | none =>
    rw [h6] at ho
    simp only [] at ho
    cases hf : w0.file with
    | none =>
      rw [hf] at ho; subst ho
      right; right; simp [settles]
    | some s0 =>
      rw [hf] at ho; subst ho
      right; left; simp [settles]

/-! ## Claims -/

/-- C1: on an info blob of at least 58 bytes, whatever its spare capacity, the
configuration literal of Connect is built, and it reads the blob at fixed
offsets: the local addresses are bytes 0..3 with network length 32 and bytes
4..19 with network length 128, the endpoint host is bytes 20..23 in dotted
decimal, the endpoint port is 256 * byte 24 + byte 25, the peer public key is
bytes 26..57; any blob with the same first 58 bytes gives the same
configuration. -/
theorem C1_config_reads_fixed_offsets (dflt : String) (id : Nat) (info spare k : List Byte)
    (ks : List (List Byte)) (rs : List IP) (p : Nat) (h : 58 ≤ info.length) :
    ∃ cfg peer,
      wireGuardConfig dflt ⟨id, info, spare, k :: ks, rs⟩ p = some cfg ∧
      cfg.Interface.Addresses =
        [{ IP := info.take 4, Net := 32 }, { IP := (info.drop 4).take 16, Net := 128 }] ∧
      cfg.Peers = [peer] ∧
      peer.Endpoint.Host =
        dotted (info.getD 20 0) (info.getD 21 0) (info.getD 22 0) (info.getD 23 0) ∧
      peer.Endpoint.Port = 256 * (info.getD 24 0).val + (info.getD 25 0).val ∧
      peer.PublicKey = NewKey ((info.drop 26).take 32) ∧
      ∀ info2 spare2 : List Byte, info2.take 58 = info.take 58 →
        wireGuardConfig dflt ⟨id, info2, spare2, k :: ks, rs⟩ p = some cfg := by
  refine ⟨_, _, wireGuardConfig_eq dflt id info spare k ks rs p h, rfl, rfl, rfl, rfl, rfl, ?_⟩
  intro info2 spare2 h2
  have hlen : 58 ≤ info2.length := by
    have e := congrArg List.length h2
    simp only [List.length_take] at e
    omega
  rw [← wireGuardConfig_take dflt id info2 spare2 [] _ rs p hlen, h2,
    wireGuardConfig_take dflt id info spare [] _ rs p h]
  exact wireGuardConfig_eq dflt id info spare k ks rs p h

/-- Witness of C1 on the example blob 10.8.0.5, fd00::5, 203.0.113.9, 0x2710, K:
the addresses are 10.8.0.5/32 and fd00::5/128, the endpoint is
203.0.113.9:10000 and the peer key is K. -/
theorem C1_config_reads_fixed_offsets_witness :
    58 ≤ sampleInfo.length ∧
    (∃ cfg peer,
      wireGuardConfig "wg0" ⟨7, sampleInfo, [], sampleKey :: [], []⟩ 51820 = some cfg ∧
      cfg.Interface.Addresses =
        [{ IP := sampleInfo.take 4, Net := 32 },
         { IP := (sampleInfo.drop 4).take 16, Net := 128 }] ∧
      cfg.Peers = [peer] ∧
      peer.Endpoint.Host =
        dotted (sampleInfo.getD 20 0) (sampleInfo.getD 21 0) (sampleInfo.getD 22 0)
          (sampleInfo.getD 23 0) ∧
      peer.Endpoint.Port = 256 * (sampleInfo.getD 24 0).val + (sampleInfo.getD 25 0).val ∧
      peer.PublicKey = NewKey ((sampleInfo.drop 26).take 32) ∧
      ∀ info2 spare2 : List Byte, info2.take 58 = sampleInfo.take 58 →
        wireGuardConfig "wg0" ⟨7, info2, spare2, sampleKey :: [], []⟩ 51820 = some cfg) ∧
    (wireGuardConfig "wg0" sampleReq 51820).map
        (fun c => (c.Interface.Addresses,
          c.Peers.map (fun q => (q.Endpoint.Host, q.Endpoint.Port, q.PublicKey)))) =
      some ([{ IP := [10, 8, 0, 5], Net := 32 },
             { IP := [0xfd, 0, 0, 0, 0, 0, 0, 0, 0, 0, 0, 0, 0, 0, 0, 5], Net := 128 }],
            [("203.0.113.9", 10000, NewKey sampleKey)]) :=
  ⟨by decide,
    C1_config_reads_fixed_offsets "wg0" 7 sampleInfo [] sampleKey [] [] 51820 (by decide),
    by decide⟩

/-- C3: Disconnect is idempotent when no tunnel is active, for a load that
creates the status file when it is absent (section 3: "created (empty)
implicitly when absent") and a status file that can be read and removed:
from a state in which no record names an interface that is up (no record at
all, or a record with an empty or stale name), Disconnect answers with success,
runs no hook and leaves no record; the second Disconnect answers with the same
success and leaves the same state. -/
theorem C3_disconnect_idempotent (env1 env2 : Env) (w : World)
    (hc1 : env1.loadCreates = true) (hc2 : env2.loadCreates = true)
    (hl1 : env1.loadErr = none) (hr1 : env1.removeErr = none)
    (hl2 : env2.loadErr = none) (hr2 : env2.removeErr = none)
    (hidle : ∀ s, w.file = some s → ¬ (s.IFace ≠ "" ∧ IsUp s.IFace w = true)) :
    (Disconnect env1 w).resp = .result 200 none ∧
    (Disconnect env1 w).world = ⟨none, w.live⟩ ∧
    (∀ h n, Effect.hook h n ∉ (Disconnect env1 w).trace) ∧
    Disconnect env2 (Disconnect env1 w).world =
      ⟨.result 200 none, ⟨none, w.live⟩, [.load, .remove]⟩ := by
  have second : ∀ l, Disconnect env2 ⟨none, l⟩ = ⟨.result 200 none, ⟨none, l⟩, [.load, .remove]⟩ := by
    intro l
    simp [Disconnect, LoadFromPath, hl2, hc2, NewServiceStatus, removeStatus, Remove, hr2]
  have first : (Disconnect env1 w).resp = .result 200 none ∧
      (Disconnect env1 w).world = ⟨none, w.live⟩ ∧
      (∀ h n, Effect.hook h n ∉ (Disconnect env1 w).trace) := by
    cases hf : w.file with
    | none =>
      simp [Disconnect, LoadFromPath, hl1, hc1, hf, NewServiceStatus, removeStatus, Remove, hr1]
    | some s =>
      have hi := hidle s hf
      simp only [Disconnect, LoadFromPath, hl1, hf, removeStatus, Remove, hr1]
      by_cases hn : s.IFace ≠ ""
      · have hu : ¬ IsUp s.IFace w = true := fun h => hi ⟨hn, h⟩
        simp [hn, hu, hf]
      · simp [hn, hf]
  refine ⟨first.1, first.2.1, first.2.2, ?_⟩
  rw [first.2.1]
  exact second _

/-- Witness of C3: two Disconnect calls on a fresh host, and two after a
Connect whose up hook failed. -/
theorem C3_disconnect_idempotent_witness :
    World.init.file = none ∧
    Disconnect creatingEnv World.init = ⟨.result 200 none, World.init, [.load, .remove]⟩ ∧
    ((Disconnect creatingEnv World.init).resp = .result 200 none ∧
      (Disconnect creatingEnv World.init).world = ⟨none, World.init.live⟩ ∧
      (∀ h n, Effect.hook h n ∉ (Disconnect creatingEnv World.init).trace) ∧
      Disconnect creatingEnv (Disconnect creatingEnv World.init).world =
        ⟨.result 200 none, ⟨none, World.init.live⟩, [.load, .remove]⟩) ∧
    Disconnect creatingEnv ⟨some ⟨7, "wg0"⟩, []⟩ =
      ⟨.result 200 none, World.init, [.load, .isUp "wg0", .remove]⟩ :=
  ⟨rfl, by decide,
    C3_disconnect_idempotent creatingEnv creatingEnv World.init rfl rfl rfl rfl rfl rfl
      (fun _ h => nomatch h),
    by decide⟩

/-- C4: for a valid connect request, when the status store records a non-empty
interface name that is up, Connect answers with the conflict error 1004
"service is already running on interface ..." and mutates nothing: the world
is unchanged and the only calls made are the load and the liveness probe (no
port allocation, no save, no hook). -/
theorem C4_connect_conflict (env : Env) (req : ConnectReq) (w w0 : World) (s : ServiceStatus)
    (hv : req.Validate env = none) (hl : LoadFromPath env w = .ok (s, w0)) (hn : s.IFace ≠ "")
    (hu : IsUp s.IFace w = true) :
    w.file = some s ∧
    Connect env (.ok req) w =
      ⟨.error 400 1004 ("service is already running on interface " ++ s.IFace), w,
        [.load, .isUp s.IFace]⟩ := by
  obtain ⟨hf, rfl⟩ := LoadFromPath_named env w w0 s hl hn
  refine ⟨hf, ?_⟩
  simp only [Connect, hv, hl]
  rw [if_pos ⟨hn, hu⟩]

/-- Witness of C4: a second connect while wg0 is recorded and up. -/
theorem C4_connect_conflict_witness :
    sampleReq.Validate sampleEnv = none ∧
    LoadFromPath sampleEnv ⟨some ⟨3, "wg0"⟩, ["wg0"]⟩ =
      .ok (⟨3, "wg0"⟩, ⟨some ⟨3, "wg0"⟩, ["wg0"]⟩) ∧
    Connect sampleEnv (.ok sampleReq) ⟨some ⟨3, "wg0"⟩, ["wg0"]⟩ =
      ⟨.error 400 1004 ("service is already running on interface " ++ "wg0"),
        ⟨some ⟨3, "wg0"⟩, ["wg0"]⟩, [.load, .isUp "wg0"]⟩ :=
  ⟨by decide, rfl,
    (C4_connect_conflict sampleEnv sampleReq ⟨some ⟨3, "wg0"⟩, ["wg0"]⟩
      ⟨some ⟨3, "wg0"⟩, ["wg0"]⟩ ⟨3, "wg0"⟩ (by decide) rfl (by decide) (by decide)).2⟩

/-- C9: on an info blob of at least 58 bytes, with private key k, resolvers rs
and allocated port p, the configuration literal of Connect is built and its
parts that are not decoded from the blob are fixed: the name is the default
interface name, the listen port is p, the private key is k, the DNS list is
10.8.0.1 (in the 16-byte form that `net.ParseIP` returns) followed by rs
(length |rs| + 1), and there is exactly one peer, with allowed IPs 0.0.0.0/0
and ::/0 (16-byte forms, network length 0) and keepalive 15. The request
identifier, the spare capacity of the blob and further keys do not enter the
configuration. -/
theorem C9_config_fixed_parts (dflt : String) (id : Nat) (info spare k : List Byte)
    (ks : List (List Byte)) (rs : List IP) (p : Nat) (h : 58 ≤ info.length) :
    ∃ cfg peer,
      wireGuardConfig dflt ⟨id, info, spare, k :: ks, rs⟩ p = some cfg ∧
      cfg.Name = dflt ∧
      cfg.Interface.ListenPort = p ∧
      cfg.Interface.PrivateKey = NewKey k ∧
      cfg.Interface.DNS = [0, 0, 0, 0, 0, 0, 0, 0, 0, 0, 255, 255, 10, 8, 0, 1] :: rs ∧
      cfg.Interface.DNS.length = rs.length + 1 ∧
      cfg.Peers = [peer] ∧
      peer.AllowedIPs =
        [{ IP := [0, 0, 0, 0, 0, 0, 0, 0, 0, 0, 255, 255, 0, 0, 0, 0], Net := 0 },
         { IP := [0, 0, 0, 0, 0, 0, 0, 0, 0, 0, 0, 0, 0, 0, 0, 0], Net := 0 }] ∧
      peer.PersistentKeepalive = 15 ∧
      ∀ (id2 : Nat) (spare2 : List Byte) (ks2 : List (List Byte)),
        wireGuardConfig dflt ⟨id2, info, spare2, k :: ks2, rs⟩ p = some cfg := by
  refine ⟨_, _, wireGuardConfig_eq dflt id info spare k ks rs p h, rfl, rfl, rfl, rfl,
    by simp, rfl, rfl, rfl, ?_⟩
  intro id2 spare2 ks2
  exact wireGuardConfig_eq dflt id2 info spare2 k ks2 rs p h

/-- Witness of C9 on the sample blob with one resolver 8.8.8.8: the
configuration, evaluated, has name wg0, port 51820, key K, DNS 10.8.0.1 then
8.8.8.8, and one peer with allowed IPs 0.0.0.0/0 and ::/0 and keepalive 15. -/
theorem C9_config_fixed_parts_witness :
    58 ≤ sampleInfo.length ∧
    (∃ cfg peer,
      wireGuardConfig "wg0" ⟨7, sampleInfo, [], sampleKey :: [], [[8, 8, 8, 8]]⟩ 51820 = some cfg ∧
      cfg.Name = "wg0" ∧
      cfg.Interface.ListenPort = 51820 ∧
      cfg.Interface.PrivateKey = NewKey sampleKey ∧
      cfg.Interface.DNS =
        [0, 0, 0, 0, 0, 0, 0, 0, 0, 0, 255, 255, 10, 8, 0, 1] :: [[8, 8, 8, 8]] ∧
      cfg.Interface.DNS.length = [[(8 : Byte), 8, 8, 8]].length + 1 ∧
      cfg.Peers = [peer] ∧
      peer.AllowedIPs =
        [{ IP := [0, 0, 0, 0, 0, 0, 0, 0, 0, 0, 255, 255, 0, 0, 0, 0], Net := 0 },
         { IP := [0, 0, 0, 0, 0, 0, 0, 0, 0, 0, 0, 0, 0, 0, 0, 0], Net := 0 }] ∧
      peer.PersistentKeepalive = 15 ∧
      ∀ (id2 : Nat) (spare2 : List Byte) (ks2 : List (List Byte)),
        wireGuardConfig "wg0" ⟨id2, sampleInfo, spare2, sampleKey :: ks2, [[8, 8, 8, 8]]⟩ 51820 =
          some cfg) ∧
    wireGuardConfig "wg0" ⟨7, sampleInfo, [], [sampleKey], [[8, 8, 8, 8]]⟩ 51820 = some
      { Name := "wg0"
        Interface :=
          { Addresses :=
              [{ IP := [10, 8, 0, 5], Net := 32 },
               { IP := [0xfd, 0, 0, 0, 0, 0, 0, 0, 0, 0, 0, 0, 0, 0, 0, 5], Net := 128 }]
            ListenPort := 51820
            PrivateKey := NewKey sampleKey
            DNS := [[0, 0, 0, 0, 0, 0, 0, 0, 0, 0, 255, 255, 10, 8, 0, 1], [8, 8, 8, 8]] }
        Peers :=
          [{ PublicKey := NewKey sampleKey
             AllowedIPs :=
               [{ IP := [0, 0, 0, 0, 0, 0, 0, 0, 0, 0, 255, 255, 0, 0, 0, 0], Net := 0 },
                { IP := [0, 0, 0, 0, 0, 0, 0, 0, 0, 0, 0, 0, 0, 0, 0, 0], Net := 0 }]
             Endpoint := { Host := "203.0.113.9", Port := 10000 }
             PersistentKeepalive := 15 }] } :=
  ⟨by decide,
    C9_config_fixed_parts "wg0" 7 sampleInfo [] sampleKey [] [[8, 8, 8, 8]] 51820 (by decide),
    by decide⟩

/-- C5 (as the claim states it, refuted): with wg0 recorded and up, a run of
the connect command whose POST to the node fails returns that error, and by
then the command has disconnected the tunnel: the status record is removed and
the interface is down, so the local state is not the one before the command. -/
theorem C5_failed_negotiation_counterexample :
    ReachesPost postFailsCmdEnv ∧ NegotiationFails postFailsCmdEnv "connection refused" ∧
    ConnectCmd postFailsCmdEnv ⟨some ⟨3, "wg0"⟩, ["wg0"]⟩ =
      ⟨.error "connection refused", ⟨none, []⟩⟩ ∧
    (ConnectCmd postFailsCmdEnv ⟨some ⟨3, "wg0"⟩, ["wg0"]⟩).world ≠ ⟨some ⟨3, "wg0"⟩, ["wg0"]⟩ := by
  refine ⟨⟨rfl, rfl, rfl, rfl, rfl, rfl, rfl, rfl, rfl, ⟨42, rfl⟩, rfl, rfl, rfl, rfl, rfl⟩,
    Or.inl rfl, by decide, by decide⟩

/-- C5 (amended): when every call before the POST succeeds and the
negotiation fails with error e, the command returns e. If get-status reported
no live tunnel, the local state is the one the load of get-status left: the
state before the command when the status file exists or the load creates
nothing, and otherwise that state with the absent status file created empty.
If get-status reported a live tunnel and the disconnect of lines 84-88
succeeded, the local state is the one that Disconnect left. -/
theorem C5_failed_negotiation_state (ce : CmdEnv) (w : World) (e : String)
    (hpre : ReachesPost ce) (hfail : NegotiationFails ce e) :
    ((GetStatus ce.statusEnv w).resp = .result 200 none →
      ConnectCmd ce w = ⟨.error e, afterLoad ce.statusEnv w⟩ ∧
      (w.file ≠ none ∨ ce.statusEnv.loadCreates = false → ConnectCmd ce w = ⟨.error e, w⟩) ∧
      (afterLoad ce.statusEnv w = w ∨
        (w.file = none ∧ afterLoad ce.statusEnv w = ⟨some NewServiceStatus, w.live⟩))) ∧
    (∀ r, (GetStatus ce.statusEnv w).resp = .result 200 (some r) →
      (Disconnect ce.disconnectEnv w).resp = .result 200 none →
      ConnectCmd ce w = ⟨.error e, (Disconnect ce.disconnectEnv w).world⟩) := by
  have hneg := fun id rs w2 => negotiate_fails ce id rs w2 e hpre hfail
  obtain ⟨h1, h2, h3, h4, h5, h6, _⟩ := hpre
  have hcmd : ∀ st w1, scGetStatus ce.statusEnv w = (.ok st, w1) →
      ConnectCmd ce w =
        if st.IFace ≠ "" then
          match scDisconnect ce.disconnectEnv w1 with
          | (some e2, w2) => ⟨.error e2, w2⟩
          | (none, w2) => ⟨.error e, w2⟩
        else ⟨.error e, w1⟩ := by
    intro st w1 hst
    simp only [ConnectCmd]
    cases q1 : ce.id <;> simp [q1, Except.isOk, Except.toBool] at h1
    cases q2 : ce.nodeAddr <;> simp [q2, Except.isOk, Except.toBool] at h2
    cases q3 : ce.rating <;> simp [q3, Except.isOk, Except.toBool] at h3
    cases q4 : ce.resolvers <;> simp [q4, Except.isOk, Except.toBool] at h4
    cases q5 : ce.txContext <;> simp [q5, Except.isOk, Except.toBool] at h5
    cases q6 : ce.serviceContext <;> simp [q6, Except.isOk, Except.toBool] at h6
    simp only [hst, hneg]
  constructor
  · intro hg
    have hst : scGetStatus ce.statusEnv w = (.ok NewServiceStatus, afterLoad ce.statusEnv w) := by
      simp only [scGetStatus, hg, GetStatus_world]
    have hmain : ConnectCmd ce w = ⟨.error e, afterLoad ce.statusEnv w⟩ := by
      rw [hcmd _ _ hst]
      simp [NewServiceStatus]
    refine ⟨hmain, ?_, afterLoad_eq _ _⟩
    intro hs
    rw [hmain, afterLoad_same _ _ hs]
  · intro r hg hdis
    have hne := GetStatus_payload _ _ _ hg
    have hw : afterLoad ce.statusEnv w = w := by
      apply afterLoad_same
      left
      intro hf
      revert hg
      simp only [GetStatus, LoadFromPath, hf]
      cases ce.statusEnv.loadErr with
      | some e0 => intro h; cases h
      | none => simp [NewServiceStatus]
    have hst : scGetStatus ce.statusEnv w = (.ok ⟨r.ID, r.IFace⟩, w) := by
      simp only [scGetStatus, hg, GetStatus_world, hw]
    rw [hcmd _ _ hst, if_pos hne]
    simp only [scDisconnect, hdis]

/-- Witness of C5 (amended): the run with a failing POST on a fresh host. -/
theorem C5_failed_negotiation_state_witness :
    ReachesPost postFailsCmdEnv ∧ NegotiationFails postFailsCmdEnv "connection refused" ∧
    (GetStatus postFailsCmdEnv.statusEnv World.init).resp = .result 200 none ∧
    ConnectCmd postFailsCmdEnv World.init = ⟨.error "connection refused", World.init⟩ :=
  ⟨⟨rfl, rfl, rfl, rfl, rfl, rfl, rfl, rfl, rfl, ⟨42, rfl⟩, rfl, rfl, rfl, rfl, rfl⟩, Or.inl rfl,
    by decide,
    ((C5_failed_negotiation_state postFailsCmdEnv World.init "connection refused"
      ⟨rfl, rfl, rfl, rfl, rfl, rfl, rfl, rfl, rfl, ⟨42, rfl⟩, rfl, rfl, rfl, rfl, rfl⟩
      (Or.inl rfl)).1 (by decide)).2.1 (Or.inr rfl)⟩

/-- C6 (as the claim states it, refuted): the state after a Connect whose up
hook failed is reachable, its status record names wg0, and wg0 is not live. -/
theorem C6_store_invariant_counterexample : ¬ ∀ w b, Reachable w b → StoreNamesLive w := by
  intro h
  have hr := Reachable.step Reachable.init (Step.connect failUpEnv (.ok sampleReq) World.init)
  have hw : (Connect failUpEnv (.ok sampleReq) World.init).world = ⟨some ⟨7, "wg0"⟩, []⟩ := by
    decide
  have := h _ _ hr
  rw [hw] at this
  have := this ⟨7, "wg0"⟩ rfl (by decide)
  revert this
  decide

/-- C6 (amended): a non-empty interface name in the persisted status record
names a live interface in every reachable state, unless, since the last
Connect or Disconnect that answered with success, a Connect has answered 1009
or 1010 (preUp or up failed after the record was persisted) or a Disconnect has
answered with an error after calling postDown (after down succeeded). Step by
step: every handler invocation whose outcome is not one of these keeps the
invariant, and every Connect or Disconnect that answers with success
establishes it from any state. After a Connect that failed at preUp or up the
record does name the default interface for the request identifier, with no
rollback, and the interfaces are as before. -/
theorem C6_store_invariant :
    (∀ w, Reachable w false → StoreNamesLive w) ∧
    (∀ w op o, Step w op o → StoreNamesLive w → leavesStale op o = false →
      StoreNamesLive o.world) ∧
    (∀ w op o, Step w op o → settles op o = true → StoreNamesLive o.world) ∧
    (∀ (env : Env) (req : ConnectReq) (w : World) (e : String),
      ((Connect env (.ok req) w).resp = .error 500 1009 e ∨
        (Connect env (.ok req) w).resp = .error 500 1010 e) →
      leavesStale .connect (Connect env (.ok req) w) = true ∧
      (Connect env (.ok req) w).world = ⟨some ⟨req.ID, env.DefaultInterface⟩, w.live⟩) := by
  have keep : ∀ w op o, Step w op o → StoreNamesLive w → leavesStale op o = false →
      StoreNamesLive o.world := by
    intro w op o hs hi hst
    cases hs with
    | connect env r _ =>
      rcases Connect_cases env r w with h | h | h | h
      · rw [h] at hst; cases hst
      · exact h
      · rw [h]; exact hi
      · rw [h]; exact StoreNamesLive_afterLoad env w hi
    | disconnect env _ =>
      rcases Disconnect_cases env w with h | ⟨_, h⟩ | ⟨_, h | h⟩
      · rw [h] at hst; cases hst
      · intro s hs; rw [h] at hs; cases hs
      · rw [h]; exact hi
      · rw [h]; exact StoreNamesLive_afterLoad env w hi
    | getStatus env _ =>
      rw [GetStatus_world]; exact StoreNamesLive_afterLoad env w hi
  have settle : ∀ w op o, Step w op o → settles op o = true → StoreNamesLive o.world := by
    intro w op o hs hst
    cases hs with
    | connect env r _ => exact Connect_settles env r w hst
    | disconnect env _ =>
      rcases Disconnect_cases env w with h | ⟨_, h⟩ | ⟨h, _⟩
      · exfalso
        revert h hst
        simp only [leavesStale, settles]
        split <;> simp_all
      · intro s hs; rw [h] at hs; cases hs
      · rw [h] at hst; cases hst
    | getStatus env _ => simp [settles] at hst
  refine ⟨?_, keep, settle, ?_⟩
  · intro w hw
    have gen : ∀ w b, Reachable w b → b = false → StoreNamesLive w := by
      intro w b hr
      induction hr with
      | init => intro _ s hs; cases hs
      | step hr0 hs ih =>
        rename_i w1 b1 op o
        intro hb
        by_cases h1 : leavesStale op o = true
        · rw [if_pos h1] at hb; cases hb
        · rw [if_neg h1] at hb
          by_cases h2 : settles op o = true
          · exact settle _ _ _ hs h2
          · rw [if_neg h2] at hb
            exact keep _ _ _ hs (ih hb) (by simpa using h1)
    exact gen w false hw rfl
  · intro env req w e hr
    rcases Connect_world env (.ok req) w with h | ⟨req2, e2, hreq, _, h⟩ | ⟨req2, _, h2, _⟩
    · rcases hr with hr | hr
      · exact absurd hr (h.2.1 e)
      · exact absurd hr (h.2.2.1 e)
    · cases hreq
      refine ⟨?_, h⟩
      rcases hr with hr | hr <;> simp [leavesStale, hr]
    · rcases hr with hr | hr <;> rcases h2 with ⟨e3, h3⟩ | h3 <;> rw [hr] at h3 <;> cases h3

/-- Witness of C6 (amended): the state after a successful Connect on a fresh
host is reachable with no stale outcome behind it, and its record names wg0,
which is live. -/
theorem C6_store_invariant_witness :
    Reachable ⟨some ⟨7, "wg0"⟩, ["wg0"]⟩ false ∧ StoreNamesLive ⟨some ⟨7, "wg0"⟩, ["wg0"]⟩ :=
  have hr := Reachable.step Reachable.init (Step.connect sampleEnv (.ok sampleReq) World.init)
  have hw : (Connect sampleEnv (.ok sampleReq) World.init).world = ⟨some ⟨7, "wg0"⟩, ["wg0"]⟩ := by
    decide
  have hb : (if leavesStale .connect (Connect sampleEnv (.ok sampleReq) World.init) = true then true
      else if settles .connect (Connect sampleEnv (.ok sampleReq) World.init) = true then false
      else false) = false := by
    decide
  have hr2 : Reachable ⟨some ⟨7, "wg0"⟩, ["wg0"]⟩ false := hw ▸ hb ▸ hr
  ⟨hr2, C6_store_invariant.1 _ hr2⟩

/-- C7: if Connect fails at the up hook (error 1010), the status record it
persisted is in place; when the recorded interface is not up and the status
file can be read and removed, the next Disconnect runs no hook, removes the
record and answers with success, and the status store is empty afterwards. -/
theorem C7_disconnect_after_failed_up (envC envD : Env) (req : ConnectReq) (w : World)
    (e : String)
    (hfail : (Connect envC (.ok req) w).resp = .error 500 1010 e)
    (hdown : IsUp envC.DefaultInterface (Connect envC (.ok req) w).world = false)
    (hl : envD.loadErr = none) (hr : envD.removeErr = none) :
    (Connect envC (.ok req) w).world.file = some ⟨req.ID, envC.DefaultInterface⟩ ∧
    (Disconnect envD (Connect envC (.ok req) w).world).resp = .result 200 none ∧
    (Disconnect envD (Connect envC (.ok req) w).world).world = ⟨none, w.live⟩ ∧
    (∀ h n, Effect.hook h n ∉ (Disconnect envD (Connect envC (.ok req) w).world).trace) ∧
    Effect.remove ∈ (Disconnect envD (Connect envC (.ok req) w).world).trace := by
  have hw : (Connect envC (.ok req) w).world = ⟨some ⟨req.ID, envC.DefaultInterface⟩, w.live⟩ := by
    rcases Connect_world envC (.ok req) w with h | ⟨req2, e2, hreq, _, h⟩ | ⟨req2, _, h2, _⟩
    · exact absurd hfail (h.2.2.1 e)
    · cases hreq; exact h
    · rcases h2 with ⟨e3, h3⟩ | h3 <;> rw [hfail] at h3 <;> cases h3
  rw [hw] at hdown ⊢
  simp only [Disconnect, LoadFromPath, hl, removeStatus, Remove, hr]
  by_cases hd : envC.DefaultInterface = ""
  · simp [hd]
  · simp [hd, hdown]

/-- Witness of C7: a connect on a fresh host whose up hook fails. -/
theorem C7_disconnect_after_failed_up_witness :
    (Connect failUpEnv (.ok sampleReq) World.init).resp = .error 500 1010 "up failed" ∧
    IsUp failUpEnv.DefaultInterface (Connect failUpEnv (.ok sampleReq) World.init).world = false ∧
    ((Connect failUpEnv (.ok sampleReq) World.init).world.file =
        some ⟨sampleReq.ID, failUpEnv.DefaultInterface⟩ ∧
      (Disconnect sampleEnv (Connect failUpEnv (.ok sampleReq) World.init).world).resp =
        .result 200 none ∧
      (Disconnect sampleEnv (Connect failUpEnv (.ok sampleReq) World.init).world).world =
        ⟨none, World.init.live⟩ ∧
      (∀ h n, Effect.hook h n ∉
        (Disconnect sampleEnv (Connect failUpEnv (.ok sampleReq) World.init).world).trace) ∧
      Effect.remove ∈
        (Disconnect sampleEnv (Connect failUpEnv (.ok sampleReq) World.init).world).trace) :=
  ⟨by decide, by decide,
    C7_disconnect_after_failed_up failUpEnv sampleEnv sampleReq World.init "up failed"
      (by decide) (by decide) rfl rfl⟩

/-- C8: after a Connect that answers with success for a request with
identifier id, the interface it brought up is live; in any later state that
holds the record Connect persisted (also in a fresh process, the handler reads
nothing but the store) and in which that interface is live, GetStatus answers
with the identifier id, the default interface name and the counters that
transfer returns, and changes nothing. -/
theorem C8_status_after_connect (envC envG : Env) (req : ConnectReq) (w w2 : World) (u d : Nat)
    (hname : envC.DefaultInterface ≠ "")
    (hok : (Connect envC (.ok req) w).resp = .result 200 none)
    (hfile : w2.file = (Connect envC (.ok req) w).world.file)
    (hlive : IsUp envC.DefaultInterface w2 = true)
    (hl : envG.loadErr = none) (ht : envG.transfer = .ok (u, d)) :
    GetStatus envG w2 =
      ⟨.result 200 (some ⟨req.ID, envC.DefaultInterface, u, d⟩), w2,
        [.load, .isUp envC.DefaultInterface, .transfer envC.DefaultInterface]⟩ ∧
    IsUp envC.DefaultInterface (Connect envC (.ok req) w).world = true := by
  have hw : (Connect envC (.ok req) w).world =
      ⟨some ⟨req.ID, envC.DefaultInterface⟩, w.live.insert envC.DefaultInterface⟩ := by
    rcases Connect_world envC (.ok req) w with h | ⟨req2, e2, _, h2, _⟩ | ⟨req2, hreq, _, h⟩
    · exact absurd hok (h.2.2.2.2 200 none)
    · rcases h2 with h3 | h3 <;> rw [hok] at h3 <;> cases h3
    · cases hreq; exact h
  rw [hw] at hfile ⊢
  constructor
  · simp only [GetStatus, LoadFromPath, hl, hfile, ht]
    rw [if_pos ⟨hname, hlive⟩]
  · simp [IsUp]

/-- Witness of C8: connect on a fresh host, then get-status with counters
(120, 3400). -/
theorem C8_status_after_connect_witness :
    sampleEnv.DefaultInterface ≠ "" ∧
    (Connect sampleEnv (.ok sampleReq) World.init).resp = .result 200 none ∧
    (GetStatus { sampleEnv with transfer := .ok (120, 3400) }
        (Connect sampleEnv (.ok sampleReq) World.init).world =
      ⟨.result 200 (some ⟨sampleReq.ID, sampleEnv.DefaultInterface, 120, 3400⟩),
        (Connect sampleEnv (.ok sampleReq) World.init).world,
        [.load, .isUp sampleEnv.DefaultInterface, .transfer sampleEnv.DefaultInterface]⟩ ∧
      IsUp sampleEnv.DefaultInterface (Connect sampleEnv (.ok sampleReq) World.init).world
        = true) :=
  ⟨by decide, by decide,
    C8_status_after_connect sampleEnv { sampleEnv with transfer := .ok (120, 3400) } sampleReq
      World.init (Connect sampleEnv (.ok sampleReq) World.init).world 120 3400 (by decide)
      (by decide) rfl (by decide) rfl rfl⟩

/-- C10 (as the claim states it, refuted): with a stale record for wg0 and a
failing port allocation, Connect answers as from an empty store but the
resulting status record is the stale one, not the absent one. -/
theorem C10_stale_record_connect_counterexample :
    sampleReq.Validate noPortEnv = none ∧
    IsUp "wg0" ⟨some ⟨3, "wg0"⟩, []⟩ = false ∧
    (Connect noPortEnv (.ok sampleReq) ⟨some ⟨3, "wg0"⟩, []⟩).resp =
      (Connect noPortEnv (.ok sampleReq) ⟨none, []⟩).resp ∧
    (Connect noPortEnv (.ok sampleReq) ⟨some ⟨3, "wg0"⟩, []⟩).world.file = some ⟨3, "wg0"⟩ ∧
    (Connect noPortEnv (.ok sampleReq) ⟨none, []⟩).world.file = none ∧
    (Connect noPortEnv (.ok sampleReq) ⟨some ⟨3, "wg0"⟩, []⟩).world.file ≠
      (Connect noPortEnv (.ok sampleReq) ⟨none, []⟩).world.file := by
  decide

/-- C10 (amended): for a valid connect request and a stale record (a
non-empty recorded name that is not up), Connect does not refuse: the response
and the interface state are the same as from an empty status store with the
same environment. When the load, the port allocation, the configuration
literal and the save all succeed, the resulting worlds are the same and the
record is the new one (request identifier, default interface name). When one
of them fails, the run from the stale record ends in the world it started
from, the stale record in place, and the run from the empty store ends in the
world its load left. -/
theorem C10_stale_record_connect (env : Env) (req : ConnectReq) (w : World) (s : ServiceStatus)
    (hv : req.Validate env = none) (hf : w.file = some s) (hn : s.IFace ≠ "")
    (hstale : IsUp s.IFace w = false) :
    (Connect env (.ok req) w).resp = (Connect env (.ok req) ⟨none, w.live⟩).resp ∧
    (∀ m, (Connect env (.ok req) w).resp ≠ .error 400 1004 m) ∧
    (Connect env (.ok req) w).world.live = (Connect env (.ok req) ⟨none, w.live⟩).world.live ∧
    (∀ p cfg, env.loadErr = none → env.freePort = .ok p →
      wireGuardConfig env.DefaultInterface req p = some cfg → env.saveErr = none →
      (Connect env (.ok req) w).world = (Connect env (.ok req) ⟨none, w.live⟩).world ∧
      (Connect env (.ok req) w).world.file = some ⟨req.ID, env.DefaultInterface⟩) ∧
    ((env.loadErr ≠ none ∨ (∃ e, env.freePort = .error e) ∨
        (∃ p, env.freePort = .ok p ∧ wireGuardConfig env.DefaultInterface req p = none) ∨
        env.saveErr ≠ none) →
      (Connect env (.ok req) w).world = w ∧
      (Connect env (.ok req) w).world.file = some s ∧
      (Connect env (.ok req) ⟨none, w.live⟩).world = afterLoad env ⟨none, w.live⟩) := by
  have _ := hn
  obtain ⟨a, ha⟩ : ∃ a, Connect env (.ok req) w = a := ⟨_, rfl⟩
  obtain ⟨b, hb⟩ : ∃ b, Connect env (.ok req) ⟨none, w.live⟩ = b := ⟨_, rfl⟩
  rw [ha, hb]
  cases h1 : env.loadErr with
  | some e =>
    simp only [Connect, hv, LoadFromPath, h1] at ha hb
    subst ha; subst hb
    simp [afterLoad, LoadFromPath, h1, hf]
  | none =>
  have hlA : LoadFromPath env w = .ok (s, w) := by simp [LoadFromPath, h1, hf]
  obtain ⟨w0, hlB, hlive0⟩ : ∃ w0,
      LoadFromPath env ⟨none, w.live⟩ = .ok (NewServiceStatus, w0) ∧ w0.live = w.live := by
    refine ⟨if env.loadCreates = true then ⟨some NewServiceStatus, w.live⟩ else ⟨none, w.live⟩,
      by simp only [LoadFromPath, h1], ?_⟩
    split <;> rfl
  have hal : afterLoad env ⟨none, w.live⟩ = w0 := by simp only [afterLoad, hlB]
  have hcA : ¬ (s.IFace ≠ "" ∧ IsUp s.IFace w = true) := by simp [hstale]
  have hcB : ¬ (NewServiceStatus.IFace ≠ "" ∧ IsUp NewServiceStatus.IFace w0 = true) := by
    simp [NewServiceStatus]
  rw [hal]
  simp only [Connect, hv, hlA, if_neg hcA, SaveToPath, runHook] at ha
  simp only [Connect, hv, hlB, if_neg hcB, SaveToPath, runHook, hlive0] at hb
  cases h2 : env.freePort with
  | error e =>
    rw [h2] at ha hb; subst ha; subst hb
    simp [hf, hlive0]
  | ok p =>
  rw [h2] at ha hb
  simp only [] at ha hb
  cases h3 : wireGuardConfig env.DefaultInterface req p with
  | none =>
    rw [h3] at ha hb; subst ha; subst hb
    simp [hf, hlive0]
    intro p2 cfg hp hc
    rw [← hp, h3] at hc
    cases hc
  | some cfg =>
  have hname := wireGuardConfig_name _ _ _ _ h3
  have hst : (NewServiceStatus.WithID req.ID).WithIFace env.DefaultInterface =
      ⟨req.ID, env.DefaultInterface⟩ := by
    simp [ServiceStatus.WithID, ServiceStatus.WithIFace, NewServiceStatus]
  rw [h3] at ha hb
  simp only [hname, hst] at ha hb
  cases h4 : env.saveErr with
  | some e =>
    rw [h4] at ha hb; subst ha; subst hb
    simp [hf, hlive0]
  | none =>
  rw [h4] at ha hb
  simp only [] at ha hb
  cases h5 : env.hook .PreUp with
  | some e =>
    rw [h5] at ha hb; subst ha; subst hb
    simp [hf, h3]
  | none =>
  rw [h5] at ha hb
  simp only [] at ha hb
  cases h6 : env.hook .Up with
  | some e =>
    rw [h6] at ha hb; subst ha; subst hb
    simp [hf, h3]
  | none =>
  rw [h6] at ha hb
  simp only [] at ha hb
  cases h7 : env.hook .PostUp with
  | some e =>
    rw [h7] at ha hb; subst ha; subst hb
    simp [hf, h3]
  | none =>
    rw [h7] at ha hb; subst ha; subst hb
    simp [hf, h3]

/-- Witness of C10 (amended): a stale record for wg0; when nothing fails both
runs end with the record (7, wg0) and wg0 up; when the port allocation fails
the stale record stays in place. -/
theorem C10_stale_record_connect_witness :
    sampleReq.Validate sampleEnv = none ∧
    (Connect sampleEnv (.ok sampleReq) ⟨some ⟨3, "wg0"⟩, []⟩).world =
      ⟨some ⟨7, "wg0"⟩, ["wg0"]⟩ ∧
    (Connect sampleEnv (.ok sampleReq) ⟨some ⟨3, "wg0"⟩, []⟩).resp =
      (Connect sampleEnv (.ok sampleReq) ⟨none, []⟩).resp ∧
    (Connect sampleEnv (.ok sampleReq) ⟨some ⟨3, "wg0"⟩, []⟩).world =
      (Connect sampleEnv (.ok sampleReq) ⟨none, []⟩).world ∧
    (Connect noPortEnv (.ok sampleReq) ⟨some ⟨3, "wg0"⟩, []⟩).world = ⟨some ⟨3, "wg0"⟩, []⟩ :=
  have h := C10_stale_record_connect sampleEnv sampleReq ⟨some ⟨3, "wg0"⟩, []⟩ ⟨3, "wg0"⟩
    (by decide) rfl (by decide) (by decide)
  ⟨by decide, by decide, h.1,
    (h.2.2.2.1 51820 _ rfl rfl (wireGuardConfig_eq "wg0" 7 sampleInfo [] sampleKey [] [] 51820
      (by decide)) rfl).1,
    by decide⟩

/-- C11: in every Disconnect run the down hooks are called only when the load
gave a record with a non-empty interface name that is up, and then they are
called for that interface in the order preDown, down, postDown, up to the
first failure (all three when none fails); the removal of the status record is
attempted, and the record changed, only if every hook called succeeded; if a
hook fails it is the last hook called, the hooks before it succeeded, the
removal is not attempted, the status record is unchanged and the response is
an error carrying the error of that hook. -/
theorem C11_disconnect_hooks (env : Env) (w : World) :
    (hooksOf (Disconnect env w).trace ≠ [] →
      ∃ s w0, LoadFromPath env w = .ok (s, w0) ∧ s.IFace ≠ "" ∧ IsUp s.IFace w = true) ∧
    (∀ s w0, LoadFromPath env w = .ok (s, w0) → s.IFace ≠ "" → IsUp s.IFace w = true →
      hooksOf (Disconnect env w).trace ≠ [] ∧
      hooksOf (Disconnect env w).trace <+:
        [(.PreDown, s.IFace), (.Down, s.IFace), (.PostDown, s.IFace)] ∧
      ((∀ h n, (h, n) ∈ hooksOf (Disconnect env w).trace → env.hook h = none) →
        hooksOf (Disconnect env w).trace =
          [(.PreDown, s.IFace), (.Down, s.IFace), (.PostDown, s.IFace)])) ∧
    (Effect.remove ∈ (Disconnect env w).trace →
      ∀ h n, (h, n) ∈ hooksOf (Disconnect env w).trace → env.hook h = none) ∧
    ((Disconnect env w).world.file ≠ w.file →
      ∀ h n, (h, n) ∈ hooksOf (Disconnect env w).trace → env.hook h = none) ∧
    (∀ h n e, (h, n) ∈ hooksOf (Disconnect env w).trace → env.hook h = some e →
      (hooksOf (Disconnect env w).trace).getLast? = some (h, n) ∧
      (∀ q, q ∈ (hooksOf (Disconnect env w).trace).dropLast → env.hook q.1 = none) ∧
      Effect.remove ∉ (Disconnect env w).trace ∧
      (Disconnect env w).world.file = w.file ∧
      ∃ code, (Disconnect env w).resp = .error 500 code e) := by
  obtain ⟨o, ho⟩ : ∃ o, Disconnect env w = o := ⟨_, rfl⟩
  rw [ho]
  simp only [Disconnect, runHook, removeStatus, Remove] at ho
  cases hl : LoadFromPath env w with
  | error e0 =>
    rw [hl] at ho; subst ho
    simp [hooksOf]
  | ok pr =>
  obtain ⟨s, w0⟩ := pr
  rw [hl] at ho
  simp only [] at ho
  by_cases h1 : s.IFace ≠ ""
  · obtain ⟨hfile, rfl⟩ := LoadFromPath_named env w w0 s hl h1
    by_cases h2 : IsUp s.IFace w0 = true
    · rw [if_pos h1, if_pos h2] at ho
      cases h3 : env.hook .PreDown with
      | some e3 =>
        rw [h3] at ho; subst ho
        simp [hooksOf, h1, h2, h3]
        rintro h n e rfl rfl he
        rw [h3] at he
        cases he
        exact ⟨⟨rfl, rfl⟩, rfl⟩
      | none =>
      rw [h3] at ho
      simp only [] at ho
      cases h4 : env.hook .Down with
      | some e4 =>
        rw [h4] at ho; subst ho
        simp [hooksOf, h1, h2, h3, h4]
        refine ⟨⟨.Down, ⟨_, Or.inr ⟨rfl, rfl⟩⟩, by simp [h4]⟩, ?_⟩
        rintro h n e (⟨rfl, rfl⟩ | ⟨rfl, rfl⟩) he
        · rw [h3] at he; cases he
        · rw [h4] at he; cases he; exact ⟨⟨rfl, rfl⟩, rfl⟩
      | none =>
      rw [h4] at ho
      simp only [] at ho
      cases h5 : env.hook .PostDown with
      | some e5 =>
        rw [h5] at ho; subst ho
        simp [hooksOf, h1, h2, h3, h4, h5]
        rintro h n e (⟨rfl, rfl⟩ | ⟨rfl, rfl⟩ | ⟨rfl, rfl⟩) he
        · rw [h3] at he; cases he
        · rw [h4] at he; cases he
        · rw [h5] at he; cases he; exact ⟨⟨rfl, rfl⟩, rfl⟩
      | none =>
      rw [h5] at ho
      simp only [] at ho
      have key : ∀ (h : Hook) (n : String),
          h = Hook.PreDown ∧ n = s.IFace ∨ h = Hook.Down ∧ n = s.IFace ∨
            h = Hook.PostDown ∧ n = s.IFace →
          env.hook h = none := by
        rintro h n (⟨rfl, rfl⟩ | ⟨rfl, rfl⟩ | ⟨rfl, rfl⟩) <;> assumption
      cases h6 : env.removeErr with
      | some e6 =>
        rw [h6] at ho; subst ho
        simp [hooksOf, h1, h2, h3, h4, h5]
        exact ⟨key, fun h n e hd he => by rw [key h n hd] at he; cases he⟩
      | none =>
      rw [h6] at ho
      simp only [hfile] at ho
      subst ho
      simp [hooksOf, h1, h2, h3, h4, h5]
      exact ⟨key, fun _ => key, fun h n e hd he => by rw [key h n hd] at he; cases he⟩
    · rw [if_pos h1, if_neg h2] at ho
      cases h6 : env.removeErr with
      | some e6 =>
        rw [h6] at ho; subst ho
        simp [hooksOf, h1, h2]
      | none =>
      rw [h6] at ho
      simp only [hfile] at ho
      subst ho
      simp [hooksOf, h1, h2]
  · rw [if_neg h1] at ho
    cases h6 : env.removeErr with
    | some e6 =>
      rw [h6] at ho; subst ho
      simp [hooksOf, h1]
    | none =>
    rw [h6] at ho
    simp only [] at ho
    cases hf : w0.file with
    | none =>
      rw [hf] at ho; subst ho
      simp [hooksOf, h1]
    | some s0 =>
      rw [hf] at ho; subst ho
      simp [hooksOf, h1]

/-- Witness of C11: wg0 is recorded and up and the down hook fails: preDown
and down are called, postDown and the removal are not, the record stays and
the response carries the error of the down hook. -/
theorem C11_disconnect_hooks_witness :
    hooksOf (Disconnect failDownEnv ⟨some ⟨7, "wg0"⟩, ["wg0"]⟩).trace <+:
      [(.PreDown, "wg0"), (.Down, "wg0"), (.PostDown, "wg0")] ∧
    Disconnect failDownEnv ⟨some ⟨7, "wg0"⟩, ["wg0"]⟩ =
      ⟨.error 500 1003 "down failed", ⟨some ⟨7, "wg0"⟩, ["wg0"]⟩,
        [.load, .isUp "wg0", .hook .PreDown "wg0", .hook .Down "wg0"]⟩ ∧
    Disconnect sampleEnv ⟨some ⟨7, "wg0"⟩, ["wg0"]⟩ =
      ⟨.result 200 none, ⟨none, []⟩,
        [.load, .isUp "wg0", .hook .PreDown "wg0", .hook .Down "wg0", .hook .PostDown "wg0",
          .remove]⟩ :=
  ⟨((C11_disconnect_hooks failDownEnv ⟨some ⟨7, "wg0"⟩, ["wg0"]⟩).2.1 ⟨7, "wg0"⟩
      ⟨some ⟨7, "wg0"⟩, ["wg0"]⟩ rfl (by decide) (by decide)).2.1,
    by decide, by decide⟩

/-- C13: for a Connect run that passes validation, the load, the conflict
check and the port allocation, the calls after the port allocation are an
initial part of [save of the record (request id, default interface name),
preUp, up, postUp], each at most once; when the configuration literal is built
the save comes first and the sequence runs on as long as no step fails; a
failing step is the last one called, the steps before it succeeded and stay in
effect (the saved record is in place, the interface brought up is live), and
the response is an error carrying the error of that step; the response is
success with no payload exactly when all four steps were called and
succeeded. -/
theorem C13_connect_sequence (env : Env) (req : ConnectReq) (w w0 : World)
    (status : ServiceStatus) (p : Nat) (hv : req.Validate env = none)
    (hl : LoadFromPath env w = .ok (status, w0))
    (hc : ¬ (status.IFace ≠ "" ∧ IsUp status.IFace w = true)) (hp : env.freePort = .ok p) :
    ∃ steps,
      (Connect env (.ok req) w).trace = .load :: probe status ++ [.freePort] ++ steps ∧
      steps <+: bringUpSteps req.ID env.DefaultInterface ∧
      steps.Nodup ∧
      ((∃ cfg, wireGuardConfig env.DefaultInterface req p = some cfg) →
        steps.head? = some (.save ⟨req.ID, env.DefaultInterface⟩) ∧
        ((∀ s, s ∈ steps → env.stepErr s = none) →
          steps = bringUpSteps req.ID env.DefaultInterface)) ∧
      (∀ s e, s ∈ steps → env.stepErr s = some e →
        steps.getLast? = some s ∧
        (∀ q, q ∈ steps.dropLast → env.stepErr q = none) ∧
        ∃ code, (Connect env (.ok req) w).resp = .error 500 code e) ∧
      ((∃ st, Effect.save st ∈ steps) → env.saveErr = none →
        (Connect env (.ok req) w).world.file = some ⟨req.ID, env.DefaultInterface⟩) ∧
      ((∃ n, Effect.hook .Up n ∈ steps) → env.hook .Up = none →
        IsUp env.DefaultInterface (Connect env (.ok req) w).world = true) ∧
      ((Connect env (.ok req) w).resp = .result 200 none ↔
        (steps = bringUpSteps req.ID env.DefaultInterface ∧
          ∀ s, s ∈ steps → env.stepErr s = none)) := by
  obtain ⟨o, ho⟩ : ∃ o, Connect env (.ok req) w = o := ⟨_, rfl⟩
  rw [ho]
  have hc0 : ¬ (status.IFace ≠ "" ∧ IsUp status.IFace w0 = true) := by
    rw [IsUp_afterLoad env w w0 status status.IFace hl]; exact hc
  simp only [Connect, hv, hl, if_neg hc0, hp, SaveToPath, runHook] at ho
  cases hb : wireGuardConfig env.DefaultInterface req p with
  | none =>
    rw [hb] at ho; subst ho
    refine ⟨[], ?_⟩
    simp [bringUpSteps]
  | some cfg =>
  have hname := wireGuardConfig_name _ _ _ _ hb
  have hst : (NewServiceStatus.WithID req.ID).WithIFace env.DefaultInterface =
      ⟨req.ID, env.DefaultInterface⟩ := by
    simp [ServiceStatus.WithID, ServiceStatus.WithIFace, NewServiceStatus]
  rw [hb] at ho
  simp only [hname, hst] at ho
  cases h1 : env.saveErr with
  | some e1 =>
    rw [h1] at ho; subst ho
    refine ⟨[.save ⟨req.ID, env.DefaultInterface⟩], ?_⟩
    simp [bringUpSteps, Env.stepErr, h1]
    rintro s e rfl he
    simp only [Option.some.injEq] at he
    exact ⟨rfl, he⟩
  | none =>
  rw [h1] at ho
  simp only [] at ho
  cases h2 : env.hook .PreUp with
  | some e2 =>
    rw [h2] at ho; subst ho
    refine ⟨[.save ⟨req.ID, env.DefaultInterface⟩, .hook .PreUp env.DefaultInterface], ?_⟩
    simp [bringUpSteps, Env.stepErr, h1, h2]
    rintro s e (rfl | rfl) he
    · simp at he
    · simp [h2] at he; exact ⟨rfl, he⟩
  | none =>
  rw [h2] at ho
  simp only [] at ho
  cases h3 : env.hook .Up with
  | some e3 =>
    rw [h3] at ho; subst ho
    refine ⟨[.save ⟨req.ID, env.DefaultInterface⟩, .hook .PreUp env.DefaultInterface,
      .hook .Up env.DefaultInterface], ?_⟩
    simp [bringUpSteps, Env.stepErr, h1, h2, h3]
    rintro s e (rfl | rfl | rfl) he
    · simp at he
    · simp [h2] at he
    · simp [h3] at he; exact ⟨rfl, he⟩
  | none =>
  rw [h3] at ho
  simp only [] at ho
  cases h4 : env.hook .PostUp with
  | some e4 =>
    rw [h4] at ho; subst ho
    refine ⟨bringUpSteps req.ID env.DefaultInterface, ?_⟩
    simp [bringUpSteps, Env.stepErr, h1, h2, h3, h4, IsUp]
    rintro s e (rfl | rfl | rfl | rfl) he
    · simp at he
    · simp [h2] at he
    · simp [h3] at he
    · simp [h4] at he; exact ⟨rfl, he⟩
  | none =>
    rw [h4] at ho; subst ho
    refine ⟨bringUpSteps req.ID env.DefaultInterface, ?_⟩
    simp [bringUpSteps, Env.stepErr, h1, h2, h3, h4, IsUp]
    rintro s e (rfl | rfl | rfl | rfl) he
    · simp at he
    · simp [h2] at he
    · simp [h3] at he
    · simp [h4] at he

/-- Witness of C13: a connect on a fresh host whose up hook fails stops after
save, preUp, up, answers with the error of the up hook, and keeps the saved
record. -/
theorem C13_connect_sequence_witness :
    sampleReq.Validate failUpEnv = none ∧
    LoadFromPath failUpEnv World.init = .ok (NewServiceStatus, World.init) ∧
    failUpEnv.freePort = .ok 51820 ∧
    (∃ steps,
      (Connect failUpEnv (.ok sampleReq) World.init).trace =
        .load :: probe NewServiceStatus ++ [.freePort] ++ steps ∧
      steps <+: bringUpSteps sampleReq.ID failUpEnv.DefaultInterface) ∧
    Connect failUpEnv (.ok sampleReq) World.init =
      ⟨.error 500 1010 "up failed", ⟨some ⟨7, "wg0"⟩, []⟩,
        [.load, .freePort, .save ⟨7, "wg0"⟩, .hook .PreUp "wg0", .hook .Up "wg0"]⟩ :=
  ⟨by decide, rfl, rfl,
    (C13_connect_sequence failUpEnv sampleReq World.init World.init NewServiceStatus 51820
      (by decide) rfl
      (by decide) rfl).imp (fun _ h => ⟨h.1, h.2.1⟩),
    by decide⟩

end CliClient
